import Mathlib

/-!
Verification of the MNA (modified nodal analysis) assembly engine of this
repository (`old_src/mna.rs`, `src/mna/mna_rhs.rs`).

Modelling conventions:
* The scalar type `f64` is modelled by `ℚ` (the engine only adds, negates
  and divides scalar parameters; no floating-point-specific behaviour is
  claimed).
* Rust `usize` indices are modelled by `Nat`; the saturating `n - 1` only
  occurs under `n ≠ 0` guards, exactly as in the source.
* A Rust function that can `panic!` (or `todo!`) is modelled as returning
  `Except String α`: `.error msg` models a process abort (panic) carrying
  the panic message.  The code base has no recoverable error channel.
* The external sparse-matrix collaborator (`csuperlu::sparse_matrix::SparseMat`
  and `crate::sparse::concat_*`) is not part of this repository's sources;
  it is modelled from the spec's collaborator contract (indexed get returning
  zero when absent, overwriting set, resize preserving in-bounds entries,
  enumeration of stored entries in a stable (insertion) order, horizontal and
  vertical block concatenation).
-/

namespace Esim

/-- Modelled from the spec: the external sparse-matrix collaborator.
`rows`/`cols` are the current logical dimensions, `keys` the stored entry
positions in insertion order, and `val` the stored value at each position
(zero when absent). -/
structure SparseMat where
  rows : Nat
  cols : Nat
  keys : List (Nat × Nat)
  val : Nat → Nat → ℚ

/-- Modelled from the spec: `SparseMat::empty()`. -/
def SparseMat.empty : SparseMat :=
  { rows := 0, cols := 0, keys := [], val := fun _ _ => 0 }

/-- Modelled from the spec: indexed get, zero if absent (`get_unbounded`). -/
def SparseMat.get_unbounded (m : SparseMat) (r c : Nat) : ℚ :=
  m.val r c

/-- Modelled from the spec: overwriting set (`insert_unbounded`), recording
the entry position. -/
def SparseMat.insert_unbounded (m : SparseMat) (r c : Nat) (v : ℚ) : SparseMat :=
  { m with
    keys := if (r, c) ∈ m.keys then m.keys else m.keys ++ [(r, c)],
    val := fun i j => if i = r ∧ j = c then v else m.val i j }

/-- Modelled from the spec: `resize(rows, cols)`, preserving previously
stored entries whose indices remain in bounds. -/
def SparseMat.resize (m : SparseMat) (r c : Nat) : SparseMat :=
  { rows := r, cols := c,
    keys := m.keys.filter (fun k => decide (k.1 < r) && decide (k.2 < c)),
    val := fun i j => if i < r ∧ j < c then m.val i j else 0 }

/-- Modelled from the spec: enumeration of the stored entries, in a stable
(insertion) order. -/
def SparseMat.non_zero_vals (m : SparseMat) : List ((Nat × Nat) × ℚ) :=
  m.keys.map (fun k => (k, m.val k.1 k.2))

/-- Modelled from the spec: horizontal block concatenation. -/
def concat_horizontal (a b : SparseMat) : SparseMat :=
  { rows := max a.rows b.rows,
    cols := a.cols + b.cols,
    keys := a.keys ++ b.keys.map (fun k => (k.1, a.cols + k.2)),
    val := fun i j => if j < a.cols then a.val i j else b.val i (j - a.cols) }

/-- Modelled from the spec: vertical block concatenation. -/
def concat_vertical (a b : SparseMat) : SparseMat :=
  { rows := a.rows + b.rows,
    cols := max a.cols b.cols,
    keys := a.keys ++ b.keys.map (fun k => (a.rows + k.1, k.2)),
    val := fun i j => if i < a.rows then a.val i j else b.val (i - a.rows) j }

/-- `fn plus_equals(mat, row, col, val)` from `old_src/mna.rs`: accumulate
`val` onto the existing cell value (absent cells read as zero). -/
def plus_equals (mat : SparseMat) (row col : Nat) (val : ℚ) : SparseMat :=
  mat.insert_unbounded row col (mat.get_unbounded row col + val)

/-- `struct MnaMatrix` from `old_src/mna.rs`. -/
structure MnaMatrix where
  num_voltage_nodes : Nat
  num_current_edges : Nat
  top_left : SparseMat
  top_right : SparseMat
  bottom_left : SparseMat
  bottom_right : SparseMat

/-- `MnaMatrix::new()`. -/
def MnaMatrix.new : MnaMatrix :=
  { num_voltage_nodes := 0, num_current_edges := 0,
    top_left := SparseMat.empty, top_right := SparseMat.empty,
    bottom_left := SparseMat.empty, bottom_right := SparseMat.empty }

/-- `MnaMatrix::update_num_voltage_nodes(n)`. -/
def MnaMatrix.update_num_voltage_nodes (m : MnaMatrix) (n : Nat) : MnaMatrix :=
  { m with num_voltage_nodes := max m.num_voltage_nodes n }

/-- `MnaMatrix::update_num_current_edges(e)`. -/
def MnaMatrix.update_num_current_edges (m : MnaMatrix) (e : Nat) : MnaMatrix :=
  { m with num_current_edges := max m.num_current_edges (e + 1) }

/-- State update performed by `MnaMatrix::add_symmetric_group1` when the
`n1 == n2` panic guard passes (the guard itself is in
`MnaMatrix.add_symmetric_group1`). -/
def MnaMatrix.stamp_symmetric_group1 (m : MnaMatrix) (n1 n2 : Nat) (x1 x2 : ℚ) :
    MnaMatrix :=
  let m := (m.update_num_voltage_nodes n1).update_num_voltage_nodes n2
  if n1 = 0 then
    { m with top_left := plus_equals m.top_left (n2 - 1) (n2 - 1) x1 }
  else if n2 = 0 then
    { m with top_left := plus_equals m.top_left (n1 - 1) (n1 - 1) x1 }
  else
    { m with top_left :=
        (plus_equals (plus_equals (plus_equals (plus_equals m.top_left
          (n1 - 1) (n1 - 1) x1) (n2 - 1) (n2 - 1) x1) (n1 - 1) (n2 - 1) x2)
          (n2 - 1) (n1 - 1) x2) }

/-- `MnaMatrix::add_symmetric_group1(n1, n2, x1, x2)`; `.error` models the
`panic!` on `n1 == n2`. -/
def MnaMatrix.add_symmetric_group1 (m : MnaMatrix) (n1 n2 : Nat) (x1 x2 : ℚ) :
    Except String MnaMatrix :=
  if n1 = n2 then .error "Cannot set symmetric group 1 where n1 == n2"
  else .ok (m.stamp_symmetric_group1 n1 n2 x1 x2)

/-- State update performed by `MnaMatrix::add_symmetric_group2` when the
`n1 == n2` panic guard passes. -/
def MnaMatrix.stamp_symmetric_group2 (m : MnaMatrix) (n1 n2 e : Nat)
    (x1 x2 y : ℚ) : MnaMatrix :=
  let m := ((m.update_num_voltage_nodes n1).update_num_voltage_nodes n2).update_num_current_edges e
  let m := { m with bottom_right := plus_equals m.bottom_right e e y }
  let m :=
    if n1 ≠ 0 then
      { m with top_right := plus_equals m.top_right (n1 - 1) e x1,
               bottom_left := plus_equals m.bottom_left e (n1 - 1) x1 }
    else m
  if n2 ≠ 0 then
    { m with top_right := plus_equals m.top_right (n2 - 1) e x2,
             bottom_left := plus_equals m.bottom_left e (n2 - 1) x2 }
  else m

/-- `MnaMatrix::add_symmetric_group2(n1, n2, e, x1, x2, y)`; `.error` models
the `panic!` on `n1 == n2`. -/
def MnaMatrix.add_symmetric_group2 (m : MnaMatrix) (n1 n2 e : Nat)
    (x1 x2 y : ℚ) : Except String MnaMatrix :=
  if n1 = n2 then .error "Cannot set symmetric group 2 where n1 == n2"
  else .ok (m.stamp_symmetric_group2 n1 n2 e x1 x2 y)

/-- State update performed by `MnaMatrix::add_unsymmetric_right_group2` when
the `n1 == n2` panic guard passes. -/
def MnaMatrix.stamp_unsymmetric_right_group2 (m : MnaMatrix) (n1 n2 e : Nat)
    (x1 x2 y : ℚ) : MnaMatrix :=
  let m := ((m.update_num_voltage_nodes n1).update_num_voltage_nodes n2).update_num_current_edges e
  let m := { m with bottom_right := plus_equals m.bottom_right e e y }
  let m :=
    if n1 ≠ 0 then
      { m with top_right := plus_equals m.top_right (n1 - 1) e x1 }
    else m
  if n2 ≠ 0 then
    { m with top_right := plus_equals m.top_right (n2 - 1) e x2 }
  else m

/-- `MnaMatrix::add_unsymmetric_right_group2(n1, n2, e, x1, x2, y)`. -/
def MnaMatrix.add_unsymmetric_right_group2 (m : MnaMatrix) (n1 n2 e : Nat)
    (x1 x2 y : ℚ) : Except String MnaMatrix :=
  if n1 = n2 then .error "Cannot set unsymmetric group (right) 2 where n1 == n2"
  else .ok (m.stamp_unsymmetric_right_group2 n1 n2 e x1 x2 y)

/-- State update performed by `MnaMatrix::add_unsymmetric_bottom_group2` when
the `n1 == n2` panic guard passes. -/
def MnaMatrix.stamp_unsymmetric_bottom_group2 (m : MnaMatrix) (n1 n2 e : Nat)
    (x1 x2 y : ℚ) : MnaMatrix :=
  let m := ((m.update_num_voltage_nodes n1).update_num_voltage_nodes n2).update_num_current_edges e
  let m := { m with bottom_right := plus_equals m.bottom_right e e y }
  let m :=
    if n1 ≠ 0 then
      { m with bottom_left := plus_equals m.bottom_left e (n1 - 1) x1 }
    else m
  if n2 ≠ 0 then
    { m with bottom_left := plus_equals m.bottom_left e (n2 - 1) x2 }
  else m

/-- `MnaMatrix::add_unsymmetric_bottom_group2(n1, n2, e, x1, x2, y)`. -/
def MnaMatrix.add_unsymmetric_bottom_group2 (m : MnaMatrix) (n1 n2 e : Nat)
    (x1 x2 y : ℚ) : Except String MnaMatrix :=
  if n1 = n2 then .error "Cannot set unsymmetric group (bottom) 2 where n1 == n2"
  else .ok (m.stamp_unsymmetric_bottom_group2 n1 n2 e x1 x2 y)

/-- `MnaMatrix::add_group2_value(e1, e2, y)` (no panic guard in the source). -/
def MnaMatrix.add_group2_value (m : MnaMatrix) (e1 e2 : Nat) (y : ℚ) :
    MnaMatrix :=
  let m := (m.update_num_current_edges e1).update_num_current_edges e2
  { m with bottom_right := plus_equals m.bottom_right e1 e2 y }

/-- `MnaMatrix::get_matrix()`: resize the four blocks to the frozen
dimensions and concatenate them into the assembled matrix. -/
def MnaMatrix.get_matrix (m : MnaMatrix) : SparseMat :=
  let top_left := m.top_left.resize m.num_voltage_nodes m.num_voltage_nodes
  let bottom_right := m.bottom_right.resize m.num_current_edges m.num_current_edges
  let top_right := m.top_right.resize m.num_voltage_nodes m.num_current_edges
  let bottom_left := m.bottom_left.resize m.num_current_edges m.num_voltage_nodes
  let top := concat_horizontal top_left top_right
  let bottom := concat_horizontal bottom_left bottom_right
  concat_vertical top bottom

/-- `struct MnaRhs` from `old_src/mna.rs`. -/
structure MnaRhs where
  top : SparseMat
  bottom : SparseMat

/-- `MnaRhs::new()`. -/
def MnaRhs.new : MnaRhs :=
  { top := SparseMat.empty, bottom := SparseMat.empty }

/-- `MnaRhs::add_rhs_group1(n, x)`: direct (overwriting) write into the top
block at row `n - 1`, skipped when `n` is the ground node. -/
def MnaRhs.add_rhs_group1 (r : MnaRhs) (n : Nat) (x : ℚ) : MnaRhs :=
  if n ≠ 0 then { r with top := r.top.insert_unbounded (n - 1) 1 x } else r

/-- `MnaRhs::add_rhs_group2(e, x)`: direct (overwriting) write into the
bottom block at row `e`. -/
def MnaRhs.add_rhs_group2 (r : MnaRhs) (e : Nat) (x : ℚ) : MnaRhs :=
  { r with bottom := r.bottom.insert_unbounded e 1 x }

/-- One indexed vector write `out[i] = v`; models the Rust slice write in
`MnaRhs::get_vector`, which panics when the index is out of bounds. -/
def writeChecked (out : List ℚ) (i : Nat) (v : ℚ) : Except String (List ℚ) :=
  if i < out.length then .ok (out.set i v) else .error "index out of bounds"

/-- The `for` loops of `MnaRhs::get_vector`: perform the listed indexed
writes in order, propagating the out-of-bounds panic. -/
def foldWrites (out : List ℚ) : List (Nat × ℚ) → Except String (List ℚ)
  | [] => .ok out
  | w :: ws =>
    match writeChecked out w.1 w.2 with
    | .error e => .error e
    | .ok out' => foldWrites out' ws

/-- `MnaRhs::get_vector(num_voltage_nodes, num_current_edges)`: zero-filled
dense vector, top entries written at their row, bottom entries at
`num_voltage_nodes + row`.  `.error` models the slice-indexing panic. -/
def MnaRhs.get_vector (r : MnaRhs) (num_voltage_nodes num_current_edges : Nat) :
    Except String (List ℚ) :=
  let out := List.replicate (num_voltage_nodes + num_current_edges) (0 : ℚ)
  match foldWrites out (r.top.non_zero_vals.map (fun kv => (kv.1.1, kv.2))) with
  | .error e => .error e
  | .ok out' =>
    foldWrites out' (r.bottom.non_zero_vals.map
      (fun kv => (num_voltage_nodes + kv.1.1, kv.2)))

/-- `enum Component` (defined in `component.rs`, which is not among the
sources); variants and field layout reconstructed from the match arms of
`Mna::add_element_stamp`.  The final variant is modelled from the spec: the
element-kind set is extensible and dispatch has a fallthrough arm
(`_ => todo!(...)`) for kinds with no stamp rule. -/
inductive Component where
  | Resistor (term_1 term_2 : Nat) (current_index : Option Nat) (resistance : ℚ)
  | IndependentVoltageSource (term_pos term_neg : Nat) (current_index : Nat)
      (voltage : ℚ)
  | VoltageControlledVoltageSource (term_pos term_neg ctrl_pos ctrl_neg : Nat)
      (current_index : Nat) (voltage_scale : ℚ)
  | CurrentControlledVoltageSource (term_pos term_neg : Nat) (ctrl_edge : Nat)
      (current_index : Nat) (voltage_scale : ℚ)
  | IndependentCurrentSource (term_pos term_neg : Nat)
      (current_index : Option Nat) (current : ℚ)
  | Unsupported
deriving DecidableEq

/-- `struct Mna` from `old_src/mna.rs`. -/
structure Mna where
  matrix : MnaMatrix
  rhs : MnaRhs

/-- `Mna::new()`. -/
def Mna.new : Mna :=
  { matrix := MnaMatrix.new, rhs := MnaRhs.new }

/-- `Mna::num_voltage_nodes()`. -/
def Mna.num_voltage_nodes (s : Mna) : Nat :=
  s.matrix.num_voltage_nodes

/-- `Mna::num_current_edges()`. -/
def Mna.num_current_edges (s : Mna) : Nat :=
  s.matrix.num_current_edges

/-- `Mna::add_element_stamp(component)`: per-kind dispatch; `.error` models
the panics of the stamp primitives and the `todo!("Not currently implemented")`
fallthrough arm. -/
def Mna.add_element_stamp (s : Mna) (c : Component) : Except String Mna :=
  match c with
  | .Resistor term_1 term_2 current_index r =>
    match current_index with
    | some edge =>
      match s.matrix.add_symmetric_group2 term_1 term_2 edge 1 (-1) (-r) with
      | .error e => .error e
      | .ok m => .ok { s with matrix := m }
    | none =>
      match s.matrix.add_symmetric_group1 term_1 term_2 (1 / r) (-(1 / r)) with
      | .error e => .error e
      | .ok m => .ok { s with matrix := m }
  | .IndependentVoltageSource term_pos term_neg current_index v =>
    match s.matrix.add_symmetric_group2 term_pos term_neg current_index 1 (-1) 0 with
    | .error e => .error e
    | .ok m => .ok { s with matrix := m, rhs := s.rhs.add_rhs_group2 current_index v }
  | .VoltageControlledVoltageSource term_pos term_neg ctrl_pos ctrl_neg current_index k =>
    match s.matrix.add_symmetric_group2 term_pos term_neg current_index 1 (-1) 0 with
    | .error e => .error e
    | .ok m =>
      match m.add_unsymmetric_bottom_group2 ctrl_pos ctrl_neg current_index (-k) k 0 with
      | .error e => .error e
      | .ok m' => .ok { s with matrix := m' }
  | .CurrentControlledVoltageSource term_pos term_neg ctrl_edge current_index k =>
    match s.matrix.add_symmetric_group2 term_pos term_neg current_index 1 (-1) 0 with
    | .error e => .error e
    | .ok m => .ok { s with matrix := m.add_group2_value current_index ctrl_edge (-k) }
  | .IndependentCurrentSource term_pos term_neg current_index i =>
    match current_index with
    | some edge =>
      match s.matrix.add_unsymmetric_right_group2 term_pos term_neg edge 1 (-1) 1 with
      | .error e => .error e
      | .ok m => .ok { s with matrix := m, rhs := s.rhs.add_rhs_group2 edge i }
    | none =>
      .ok { s with rhs := (s.rhs.add_rhs_group1 term_pos (-i)).add_rhs_group1 term_neg i }
  | .Unsupported => .error "Not currently implemented"

/-- Total state update applied by `Mna.add_element_stamp` whenever no panic
guard fires (see `add_element_stamp_ok`); for the unsupported kind (which
always panics) it is the identity. -/
def Mna.stamp_element (s : Mna) (c : Component) : Mna :=
  match c with
  | .Resistor term_1 term_2 current_index r =>
    match current_index with
    | some edge =>
      { s with matrix := s.matrix.stamp_symmetric_group2 term_1 term_2 edge 1 (-1) (-r) }
    | none =>
      { s with matrix := s.matrix.stamp_symmetric_group1 term_1 term_2 (1 / r) (-(1 / r)) }
  | .IndependentVoltageSource term_pos term_neg current_index v =>
    { s with matrix := s.matrix.stamp_symmetric_group2 term_pos term_neg current_index 1 (-1) 0,
             rhs := s.rhs.add_rhs_group2 current_index v }
  | .VoltageControlledVoltageSource term_pos term_neg ctrl_pos ctrl_neg current_index k =>
    { s with matrix :=
        ((s.matrix.stamp_symmetric_group2 term_pos term_neg current_index 1 (-1) 0).stamp_unsymmetric_bottom_group2
          ctrl_pos ctrl_neg current_index (-k) k 0) }
  | .CurrentControlledVoltageSource term_pos term_neg ctrl_edge current_index k =>
    { s with matrix :=
        ((s.matrix.stamp_symmetric_group2 term_pos term_neg current_index 1 (-1) 0).add_group2_value
          current_index ctrl_edge (-k)) }
  | .IndependentCurrentSource term_pos term_neg current_index i =>
    match current_index with
    | some edge =>
      { s with matrix := s.matrix.stamp_unsymmetric_right_group2 term_pos term_neg edge 1 (-1) 1,
               rhs := s.rhs.add_rhs_group2 edge i }
    | none =>
      { s with rhs := (s.rhs.add_rhs_group1 term_pos (-i)).add_rhs_group1 term_neg i }
  | .Unsupported => s

/-- A component whose stamp calls all pass their panic guards (distinct
terminals where required) and whose kind has a stamp rule. -/
def Component.ok : Component → Bool
  | .Resistor t1 t2 _ _ => t1 ≠ t2
  | .IndependentVoltageSource p n _ _ => p ≠ n
  | .VoltageControlledVoltageSource p n cp cn _ _ => p ≠ n ∧ cp ≠ cn
  | .CurrentControlledVoltageSource p n _ _ _ => p ≠ n
  | .IndependentCurrentSource p n ci _ =>
    match ci with
    | some _ => p ≠ n
    | none => true
  | .Unsupported => false

/-- `Mna::get_system()`. -/
def Mna.get_system (s : Mna) : Except String (SparseMat × List ℚ) :=
  let num_voltage_nodes := s.matrix.num_voltage_nodes
  let num_current_edges := s.matrix.num_current_edges
  let matrix := s.matrix.get_matrix
  match s.rhs.get_vector num_voltage_nodes num_current_edges with
  | .error e => .error e
  | .ok rhs => .ok (matrix, rhs)

/-- Process a list of element descriptors one at a time through
`Mna.add_element_stamp`, stopping at the first panic. -/
def Mna.stampAll (s : Mna) : List Component → Except String Mna
  | [] => .ok s
  | c :: cs =>
    match s.add_element_stamp c with
    | .error e => .error e
    | .ok s' => s'.stampAll cs

/-- Total counterpart of `stampAll` (see `stampAll_ok`). -/
def Mna.stampList (s : Mna) (cs : List Component) : Mna :=
  cs.foldl Mna.stamp_element s

/-- Assemble the system produced by a list of element descriptors, starting
from a fresh builder pair. -/
def systemOf (cs : List Component) : Except String (SparseMat × List ℚ) :=
  match Mna.new.stampAll cs with
  | .error e => .error e
  | .ok s => s.get_system

/-! ### Extensional view of the sparse blocks -/

/-- The two sparse matrices agree in dimensions, stored-entry positions
(as sets) and cell values. -/
structure SparseEquiv (a b : SparseMat) : Prop where
  rows_eq : a.rows = b.rows
  cols_eq : a.cols = b.cols
  keys_mem : ∀ k, k ∈ a.keys ↔ k ∈ b.keys
  val_eq : ∀ i j, a.val i j = b.val i j

theorem sparse_equiv_refl (a : SparseMat) : SparseEquiv a a :=
  ⟨rfl, rfl, fun _ => Iff.rfl, fun _ _ => rfl⟩

theorem sparse_equiv_trans {a b c : SparseMat} (h1 : SparseEquiv a b)
    (h2 : SparseEquiv b c) : SparseEquiv a c :=
  ⟨h1.rows_eq.trans h2.rows_eq, h1.cols_eq.trans h2.cols_eq,
   fun k => (h1.keys_mem k).trans (h2.keys_mem k),
   fun i j => (h1.val_eq i j).trans (h2.val_eq i j)⟩

/-- The two matrices are equal as matrices: same dimensions and the same
value in every cell. -/
def SparseMat.matEq (a b : SparseMat) : Prop :=
  a.rows = b.rows ∧ a.cols = b.cols ∧ ∀ i j, a.val i j = b.val i j

theorem SparseEquiv.matEq {a b : SparseMat} (h : SparseEquiv a b) :
    a.matEq b :=
  ⟨h.rows_eq, h.cols_eq, h.val_eq⟩

theorem SparseMat.insert_val (m : SparseMat) (r c : Nat) (v : ℚ) (i j : Nat) :
    (m.insert_unbounded r c v).val i j = if i = r ∧ j = c then v else m.val i j :=
  rfl

theorem SparseMat.insert_mem_keys (m : SparseMat) (r c : Nat) (v : ℚ)
    (k : Nat × Nat) :
    k ∈ (m.insert_unbounded r c v).keys ↔ k ∈ m.keys ∨ k = (r, c) := by
  simp only [SparseMat.insert_unbounded]
  split
  · rename_i hmem
    constructor
    · exact fun h => Or.inl h
    · rintro (h | h)
      · exact h
      · rw [h]
        exact hmem
  · simp

theorem plus_equals_val (m : SparseMat) (r c : Nat) (v : ℚ) (i j : Nat) :
    (plus_equals m r c v).val i j =
      if i = r ∧ j = c then m.val r c + v else m.val i j :=
  rfl

theorem plus_equals_mem_keys (m : SparseMat) (r c : Nat) (v : ℚ)
    (k : Nat × Nat) :
    k ∈ (plus_equals m r c v).keys ↔ k ∈ m.keys ∨ k = (r, c) :=
  m.insert_mem_keys r c _ k

/-! ### Accumulating updates as lists of cell additions -/

/-- Apply a list of cell accumulations (`plus_equals`) in order. -/
def applyAdds (l : List ((Nat × Nat) × ℚ)) (m : SparseMat) : SparseMat :=
  l.foldl (fun acc a => plus_equals acc a.1.1 a.1.2 a.2) m

/-- Total contribution of a list of cell accumulations to cell `(i, j)`. -/
def addsSum (l : List ((Nat × Nat) × ℚ)) (i j : Nat) : ℚ :=
  (l.map (fun a => if a.1.1 = i ∧ a.1.2 = j then a.2 else 0)).sum

@[simp] theorem applyAdds_nil (m : SparseMat) : applyAdds [] m = m := rfl

@[simp] theorem applyAdds_cons (a : (Nat × Nat) × ℚ) (l : List ((Nat × Nat) × ℚ))
    (m : SparseMat) :
    applyAdds (a :: l) m = applyAdds l (plus_equals m a.1.1 a.1.2 a.2) :=
  rfl

theorem applyAdds_append (l1 l2 : List ((Nat × Nat) × ℚ)) (m : SparseMat) :
    applyAdds (l1 ++ l2) m = applyAdds l2 (applyAdds l1 m) :=
  List.foldl_append _ _ _ _

@[simp] theorem applyAdds_rows (l : List ((Nat × Nat) × ℚ)) (m : SparseMat) :
    (applyAdds l m).rows = m.rows := by
  induction l generalizing m with
  | nil => rfl
  | cons a l ih => simp [ih, plus_equals, SparseMat.insert_unbounded]

@[simp] theorem applyAdds_cols (l : List ((Nat × Nat) × ℚ)) (m : SparseMat) :
    (applyAdds l m).cols = m.cols := by
  induction l generalizing m with
  | nil => rfl
  | cons a l ih => simp [ih, plus_equals, SparseMat.insert_unbounded]

theorem applyAdds_val (l : List ((Nat × Nat) × ℚ)) (m : SparseMat) (i j : Nat) :
    (applyAdds l m).val i j = m.val i j + addsSum l i j := by
  induction l generalizing m with
  | nil => simp [addsSum]
  | cons a l ih =>
    rw [applyAdds_cons, ih]
    by_cases h : i = a.1.1 ∧ j = a.1.2
    · obtain ⟨h1, h2⟩ := h
      subst h1; subst h2
      simp [plus_equals_val, addsSum]
      ring
    · have hne : ¬(a.1.1 = i ∧ a.1.2 = j) := by
        intro hc
        exact h ⟨hc.1.symm, hc.2.symm⟩
      rw [plus_equals_val]
      rw [if_neg (by intro hc; exact h hc)]
      simp only [addsSum, List.map_cons, List.sum_cons]
      rw [if_neg hne]
      ring

theorem applyAdds_mem_keys (l : List ((Nat × Nat) × ℚ)) (m : SparseMat)
    (k : Nat × Nat) :
    k ∈ (applyAdds l m).keys ↔ k ∈ m.keys ∨ k ∈ l.map (fun a => a.1) := by
  induction l generalizing m with
  | nil => simp
  | cons a l ih =>
    rw [applyAdds_cons, ih]
    rw [plus_equals_mem_keys]
    simp
    tauto

theorem applyAdds_congr {m m' : SparseMat} (l : List ((Nat × Nat) × ℚ))
    (h : SparseEquiv m m') : SparseEquiv (applyAdds l m) (applyAdds l m') := by
  refine ⟨?_, ?_, ?_, ?_⟩
  · simp [h.rows_eq]
  · simp [h.cols_eq]
  · intro k
    rw [applyAdds_mem_keys, applyAdds_mem_keys]
    rw [h.keys_mem k]
  · intro i j
    rw [applyAdds_val, applyAdds_val, h.val_eq]

theorem applyAdds_comm (l1 l2 : List ((Nat × Nat) × ℚ)) (m : SparseMat) :
    SparseEquiv (applyAdds l2 (applyAdds l1 m)) (applyAdds l1 (applyAdds l2 m)) := by
  refine ⟨by simp, by simp, ?_, ?_⟩
  · intro k
    simp only [applyAdds_mem_keys]
    tauto
  · intro i j
    simp only [applyAdds_val]
    ring

/-! ### Overwriting updates as lists of row writes -/

/-- Apply a list of direct column-block writes (row, value), all in the
fixed column 1 used by the RHS stamps, in order. -/
def applyWrites (l : List (Nat × ℚ)) (m : SparseMat) : SparseMat :=
  l.foldl (fun acc w => acc.insert_unbounded w.1 1 w.2) m

@[simp] theorem applyWrites_nil (m : SparseMat) : applyWrites [] m = m := rfl

@[simp] theorem applyWrites_cons (w : Nat × ℚ) (l : List (Nat × ℚ))
    (m : SparseMat) :
    applyWrites (w :: l) m = applyWrites l (m.insert_unbounded w.1 1 w.2) :=
  rfl

theorem applyWrites_append (l1 l2 : List (Nat × ℚ)) (m : SparseMat) :
    applyWrites (l1 ++ l2) m = applyWrites l2 (applyWrites l1 m) :=
  List.foldl_append _ _ _ _

@[simp] theorem applyWrites_rows (l : List (Nat × ℚ)) (m : SparseMat) :
    (applyWrites l m).rows = m.rows := by
  induction l generalizing m with
  | nil => rfl
  | cons w l ih => simp [ih, SparseMat.insert_unbounded]

@[simp] theorem applyWrites_cols (l : List (Nat × ℚ)) (m : SparseMat) :
    (applyWrites l m).cols = m.cols := by
  induction l generalizing m with
  | nil => rfl
  | cons w l ih => simp [ih, SparseMat.insert_unbounded]

theorem applyWrites_mem_keys (l : List (Nat × ℚ)) (m : SparseMat)
    (k : Nat × Nat) :
    k ∈ (applyWrites l m).keys ↔ k ∈ m.keys ∨ k ∈ l.map (fun w => (w.1, 1)) := by
  induction l generalizing m with
  | nil => simp
  | cons w l ih =>
    rw [applyWrites_cons, ih, SparseMat.insert_mem_keys]
    simp
    tauto

theorem applyWrites_congr {m m' : SparseMat} (l : List (Nat × ℚ))
    (h : SparseEquiv m m') :
    SparseEquiv (applyWrites l m) (applyWrites l m') := by
  induction l generalizing m m' with
  | nil => simpa using h
  | cons w l ih =>
    rw [applyWrites_cons, applyWrites_cons]
    refine ih ⟨h.rows_eq, h.cols_eq, ?_, ?_⟩
    · intro k
      rw [SparseMat.insert_mem_keys, SparseMat.insert_mem_keys, h.keys_mem k]
    · intro i j
      rw [SparseMat.insert_val, SparseMat.insert_val, h.val_eq]

theorem insert_insert_comm {m : SparseMat} {r1 r2 : Nat} (v1 v2 : ℚ)
    (h : r1 ≠ r2) :
    SparseEquiv ((m.insert_unbounded r1 1 v1).insert_unbounded r2 1 v2)
      ((m.insert_unbounded r2 1 v2).insert_unbounded r1 1 v1) := by
  refine ⟨rfl, rfl, ?_, ?_⟩
  · intro k
    simp only [SparseMat.insert_mem_keys]
    tauto
  · intro i j
    simp only [SparseMat.insert_val]
    by_cases h1 : i = r1 <;> by_cases h2 : i = r2 <;> by_cases hj : j = 1 <;>
      simp_all

theorem applyWrites_insert_comm {r : Nat} (v : ℚ) (l : List (Nat × ℚ)) :
    ∀ (m : SparseMat), r ∉ l.map Prod.fst →
      SparseEquiv (applyWrites l (m.insert_unbounded r 1 v))
        ((applyWrites l m).insert_unbounded r 1 v) := by
  induction l with
  | nil => exact fun m _ => sparse_equiv_refl _
  | cons w l ih =>
    intro m h
    simp only [List.map_cons, List.mem_cons] at h
    push_neg at h
    rw [applyWrites_cons, applyWrites_cons]
    refine sparse_equiv_trans (applyWrites_congr l ?_) (ih _ h.2)
    exact insert_insert_comm v w.2 h.1

theorem applyWrites_comm (l1 l2 : List (Nat × ℚ)) :
    ∀ (m : SparseMat), (∀ r ∈ l1.map Prod.fst, r ∉ l2.map Prod.fst) →
      SparseEquiv (applyWrites l2 (applyWrites l1 m))
        (applyWrites l1 (applyWrites l2 m)) := by
  induction l1 with
  | nil => exact fun m _ => sparse_equiv_refl _
  | cons w l1 ih =>
    intro m h
    rw [applyWrites_cons, applyWrites_cons]
    have hw : w.1 ∉ l2.map Prod.fst := h w.1 (by simp)
    have hrest : ∀ r ∈ l1.map Prod.fst, r ∉ l2.map Prod.fst := by
      intro r hr
      exact h r (by simp [hr])
    refine sparse_equiv_trans (ih _ hrest) ?_
    exact applyWrites_congr l1 (applyWrites_insert_comm w.2 l2 _ hw)

/-! ### Per-component characterization of `Mna.stamp_element` -/

/-- Largest node index a component's matrix stamps feed into
`update_num_voltage_nodes`. -/
def nodeBound : Component → Nat
  | .Resistor t1 t2 _ _ => max t1 t2
  | .IndependentVoltageSource p n _ _ => max p n
  | .VoltageControlledVoltageSource p n cp cn _ _ => max (max p n) (max cp cn)
  | .CurrentControlledVoltageSource p n _ _ _ => max p n
  | .IndependentCurrentSource p n ci _ =>
    match ci with
    | some _ => max p n
    | none => 0
  | .Unsupported => 0

/-- Least upper bound (edge index + 1) a component's matrix stamps feed into
`update_num_current_edges`. -/
def edgeBound : Component → Nat
  | .Resistor _ _ ci _ =>
    match ci with
    | some e => e + 1
    | none => 0
  | .IndependentVoltageSource _ _ e _ => e + 1
  | .VoltageControlledVoltageSource _ _ _ _ e _ => e + 1
  | .CurrentControlledVoltageSource _ _ ce e _ => max (e + 1) (ce + 1)
  | .IndependentCurrentSource _ _ ci _ =>
    match ci with
    | some e => e + 1
    | none => 0
  | .Unsupported => 0

/-- Cell accumulations of `stamp_symmetric_group1` into the top-left block. -/
def g1adds (n1 n2 : Nat) (x1 x2 : ℚ) : List ((Nat × Nat) × ℚ) :=
  if n1 = 0 then [((n2 - 1, n2 - 1), x1)]
  else if n2 = 0 then [((n1 - 1, n1 - 1), x1)]
  else [((n1 - 1, n1 - 1), x1), ((n2 - 1, n2 - 1), x1),
        ((n1 - 1, n2 - 1), x2), ((n2 - 1, n1 - 1), x2)]

/-- Cell accumulations of a group-2 stamp into the top-right block. -/
def g2tr (n1 n2 e : Nat) (x1 x2 : ℚ) : List ((Nat × Nat) × ℚ) :=
  (if n1 ≠ 0 then [((n1 - 1, e), x1)] else []) ++
  (if n2 ≠ 0 then [((n2 - 1, e), x2)] else [])

/-- Cell accumulations of a group-2 stamp into the bottom-left block. -/
def g2bl (n1 n2 e : Nat) (x1 x2 : ℚ) : List ((Nat × Nat) × ℚ) :=
  (if n1 ≠ 0 then [((e, n1 - 1), x1)] else []) ++
  (if n2 ≠ 0 then [((e, n2 - 1), x2)] else [])

/-- Cell accumulations a component stamp applies to the top-left block. -/
def addsTL : Component → List ((Nat × Nat) × ℚ)
  | .Resistor t1 t2 none r => g1adds t1 t2 (1 / r) (-(1 / r))
  | _ => []

/-- Cell accumulations a component stamp applies to the top-right block. -/
def addsTR : Component → List ((Nat × Nat) × ℚ)
  | .Resistor t1 t2 (some e) _ => g2tr t1 t2 e 1 (-1)
  | .IndependentVoltageSource p n e _ => g2tr p n e 1 (-1)
  | .VoltageControlledVoltageSource p n _ _ e _ => g2tr p n e 1 (-1)
  | .CurrentControlledVoltageSource p n _ e _ => g2tr p n e 1 (-1)
  | .IndependentCurrentSource p n (some e) _ => g2tr p n e 1 (-1)
  | _ => []

/-- Cell accumulations a component stamp applies to the bottom-left block. -/
def addsBL : Component → List ((Nat × Nat) × ℚ)
  | .Resistor t1 t2 (some e) _ => g2bl t1 t2 e 1 (-1)
  | .IndependentVoltageSource p n e _ => g2bl p n e 1 (-1)
  | .VoltageControlledVoltageSource p n cp cn e k =>
    g2bl p n e 1 (-1) ++ g2bl cp cn e (-k) k
  | .CurrentControlledVoltageSource p n _ e _ => g2bl p n e 1 (-1)
  | _ => []

/-- Cell accumulations a component stamp applies to the bottom-right block. -/
def addsBR : Component → List ((Nat × Nat) × ℚ)
  | .Resistor _ _ (some e) r => [((e, e), -r)]
  | .IndependentVoltageSource _ _ e _ => [((e, e), 0)]
  | .VoltageControlledVoltageSource _ _ _ _ e _ => [((e, e), 0), ((e, e), 0)]
  | .CurrentControlledVoltageSource _ _ ce e k => [((e, e), 0), ((e, ce), -k)]
  | .IndependentCurrentSource _ _ (some e) _ => [((e, e), 1)]
  | _ => []

/-- Direct (overwriting) writes a component applies to the RHS top block,
in order: (row, value). -/
def wTop : Component → List (Nat × ℚ)
  | .IndependentCurrentSource p n none i =>
    (if p ≠ 0 then [(p - 1, -i)] else []) ++ (if n ≠ 0 then [(n - 1, i)] else [])
  | _ => []

/-- Direct (overwriting) writes a component applies to the RHS bottom block. -/
def wBot : Component → List (Nat × ℚ)
  | .IndependentVoltageSource _ _ e v => [(e, v)]
  | .IndependentCurrentSource _ _ (some e) i => [(e, i)]
  | _ => []

theorem stamp_symmetric_group1_eq (m : MnaMatrix) (n1 n2 : Nat) (x1 x2 : ℚ) :
    m.stamp_symmetric_group1 n1 n2 x1 x2 =
      { m with num_voltage_nodes := max m.num_voltage_nodes (max n1 n2),
               top_left := applyAdds (g1adds n1 n2 x1 x2) m.top_left } := by
  obtain ⟨nvn, nce, tl, tr, bl, br⟩ := m
  simp only [MnaMatrix.stamp_symmetric_group1, MnaMatrix.update_num_voltage_nodes,
    g1adds]
  by_cases h1 : n1 = 0
  · simp [h1, applyAdds] <;> omega
  · by_cases h2 : n2 = 0 <;> simp [h1, h2, applyAdds] <;> omega

theorem stamp_symmetric_group2_eq (m : MnaMatrix) (n1 n2 e : Nat) (x1 x2 y : ℚ) :
    m.stamp_symmetric_group2 n1 n2 e x1 x2 y =
      { m with num_voltage_nodes := max m.num_voltage_nodes (max n1 n2),
               num_current_edges := max m.num_current_edges (e + 1),
               top_right := applyAdds (g2tr n1 n2 e x1 x2) m.top_right,
               bottom_left := applyAdds (g2bl n1 n2 e x1 x2) m.bottom_left,
               bottom_right := applyAdds [((e, e), y)] m.bottom_right } := by
  obtain ⟨nvn, nce, tl, tr, bl, br⟩ := m
  simp only [MnaMatrix.stamp_symmetric_group2, MnaMatrix.update_num_voltage_nodes,
    MnaMatrix.update_num_current_edges, g2tr, g2bl]
  by_cases h1 : n1 = 0 <;> by_cases h2 : n2 = 0 <;>
    simp [h1, h2, applyAdds] <;> omega

theorem stamp_unsymmetric_right_group2_eq (m : MnaMatrix) (n1 n2 e : Nat)
    (x1 x2 y : ℚ) :
    m.stamp_unsymmetric_right_group2 n1 n2 e x1 x2 y =
      { m with num_voltage_nodes := max m.num_voltage_nodes (max n1 n2),
               num_current_edges := max m.num_current_edges (e + 1),
               top_right := applyAdds (g2tr n1 n2 e x1 x2) m.top_right,
               bottom_right := applyAdds [((e, e), y)] m.bottom_right } := by
  obtain ⟨nvn, nce, tl, tr, bl, br⟩ := m
  simp only [MnaMatrix.stamp_unsymmetric_right_group2,
    MnaMatrix.update_num_voltage_nodes, MnaMatrix.update_num_current_edges, g2tr]
  by_cases h1 : n1 = 0 <;> by_cases h2 : n2 = 0 <;>
    simp [h1, h2, applyAdds] <;> omega

theorem stamp_unsymmetric_bottom_group2_eq (m : MnaMatrix) (n1 n2 e : Nat)
    (x1 x2 y : ℚ) :
    m.stamp_unsymmetric_bottom_group2 n1 n2 e x1 x2 y =
      { m with num_voltage_nodes := max m.num_voltage_nodes (max n1 n2),
               num_current_edges := max m.num_current_edges (e + 1),
               bottom_left := applyAdds (g2bl n1 n2 e x1 x2) m.bottom_left,
               bottom_right := applyAdds [((e, e), y)] m.bottom_right } := by
  obtain ⟨nvn, nce, tl, tr, bl, br⟩ := m
  simp only [MnaMatrix.stamp_unsymmetric_bottom_group2,
    MnaMatrix.update_num_voltage_nodes, MnaMatrix.update_num_current_edges, g2bl]
  by_cases h1 : n1 = 0 <;> by_cases h2 : n2 = 0 <;>
    simp [h1, h2, applyAdds] <;> omega

theorem add_group2_value_eq (m : MnaMatrix) (e1 e2 : Nat) (y : ℚ) :
    m.add_group2_value e1 e2 y =
      { m with num_current_edges := max m.num_current_edges (max (e1 + 1) (e2 + 1)),
               bottom_right := applyAdds [((e1, e2), y)] m.bottom_right } := by
  obtain ⟨nvn, nce, tl, tr, bl, br⟩ := m
  simp only [MnaMatrix.add_group2_value, MnaMatrix.update_num_current_edges]
  simp [applyAdds] <;> omega

theorem add_rhs_group1_eq (r : MnaRhs) (n : Nat) (x : ℚ) :
    r.add_rhs_group1 n x =
      { r with top := applyWrites (if n ≠ 0 then [(n - 1, x)] else []) r.top } := by
  obtain ⟨t, b⟩ := r
  simp only [MnaRhs.add_rhs_group1]
  by_cases h : n = 0 <;> simp [h, applyWrites]

theorem add_rhs_group2_eq (r : MnaRhs) (e : Nat) (x : ℚ) :
    r.add_rhs_group2 e x =
      { r with bottom := applyWrites [(e, x)] r.bottom } := by
  obtain ⟨t, b⟩ := r
  simp [MnaRhs.add_rhs_group2, applyWrites]

theorem stamp_element_nvn (s : Mna) (c : Component) :
    (s.stamp_element c).matrix.num_voltage_nodes =
      max s.matrix.num_voltage_nodes (nodeBound c) := by
  cases c with
  | Resistor t1 t2 ci r =>
    cases ci <;>
      simp [Mna.stamp_element, nodeBound, stamp_symmetric_group1_eq,
        stamp_symmetric_group2_eq]
  | IndependentVoltageSource p n e v =>
    simp [Mna.stamp_element, nodeBound, stamp_symmetric_group2_eq]
  | VoltageControlledVoltageSource p n cp cn e k =>
    simp [Mna.stamp_element, nodeBound, stamp_symmetric_group2_eq,
      stamp_unsymmetric_bottom_group2_eq] <;> omega
  | CurrentControlledVoltageSource p n ce e k =>
    simp [Mna.stamp_element, nodeBound, stamp_symmetric_group2_eq,
      add_group2_value_eq]
  | IndependentCurrentSource p n ci i =>
    cases ci <;>
      simp [Mna.stamp_element, nodeBound, stamp_unsymmetric_right_group2_eq]
  | Unsupported => simp [Mna.stamp_element, nodeBound]

theorem stamp_element_nce (s : Mna) (c : Component) :
    (s.stamp_element c).matrix.num_current_edges =
      max s.matrix.num_current_edges (edgeBound c) := by
  cases c with
  | Resistor t1 t2 ci r =>
    cases ci <;>
      simp [Mna.stamp_element, edgeBound, stamp_symmetric_group1_eq,
        stamp_symmetric_group2_eq]
  | IndependentVoltageSource p n e v =>
    simp [Mna.stamp_element, edgeBound, stamp_symmetric_group2_eq]
  | VoltageControlledVoltageSource p n cp cn e k =>
    simp [Mna.stamp_element, edgeBound, stamp_symmetric_group2_eq,
      stamp_unsymmetric_bottom_group2_eq] <;> omega
  | CurrentControlledVoltageSource p n ce e k =>
    simp [Mna.stamp_element, edgeBound, stamp_symmetric_group2_eq,
      add_group2_value_eq] <;> omega
  | IndependentCurrentSource p n ci i =>
    cases ci <;>
      simp [Mna.stamp_element, edgeBound, stamp_unsymmetric_right_group2_eq]
  | Unsupported => simp [Mna.stamp_element, edgeBound]

theorem stamp_element_tl (s : Mna) (c : Component) :
    (s.stamp_element c).matrix.top_left =
      applyAdds (addsTL c) s.matrix.top_left := by
  cases c with
  | Resistor t1 t2 ci r =>
    cases ci <;>
      simp [Mna.stamp_element, addsTL, stamp_symmetric_group1_eq,
        stamp_symmetric_group2_eq]
  | IndependentVoltageSource p n e v =>
    simp [Mna.stamp_element, addsTL, stamp_symmetric_group2_eq]
  | VoltageControlledVoltageSource p n cp cn e k =>
    simp [Mna.stamp_element, addsTL, stamp_symmetric_group2_eq,
      stamp_unsymmetric_bottom_group2_eq]
  | CurrentControlledVoltageSource p n ce e k =>
    simp [Mna.stamp_element, addsTL, stamp_symmetric_group2_eq,
      add_group2_value_eq]
  | IndependentCurrentSource p n ci i =>
    cases ci <;>
      simp [Mna.stamp_element, addsTL, stamp_unsymmetric_right_group2_eq]
  | Unsupported => simp [Mna.stamp_element, addsTL]

theorem stamp_element_tr (s : Mna) (c : Component) :
    (s.stamp_element c).matrix.top_right =
      applyAdds (addsTR c) s.matrix.top_right := by
  cases c with
  | Resistor t1 t2 ci r =>
    cases ci <;>
      simp [Mna.stamp_element, addsTR, stamp_symmetric_group1_eq,
        stamp_symmetric_group2_eq]
  | IndependentVoltageSource p n e v =>
    simp [Mna.stamp_element, addsTR, stamp_symmetric_group2_eq]
  | VoltageControlledVoltageSource p n cp cn e k =>
    simp [Mna.stamp_element, addsTR, stamp_symmetric_group2_eq,
      stamp_unsymmetric_bottom_group2_eq]
  | CurrentControlledVoltageSource p n ce e k =>
    simp [Mna.stamp_element, addsTR, stamp_symmetric_group2_eq,
      add_group2_value_eq]
  | IndependentCurrentSource p n ci i =>
    cases ci <;>
      simp [Mna.stamp_element, addsTR, stamp_unsymmetric_right_group2_eq]
  | Unsupported => simp [Mna.stamp_element, addsTR]

theorem stamp_element_bl (s : Mna) (c : Component) :
    (s.stamp_element c).matrix.bottom_left =
      applyAdds (addsBL c) s.matrix.bottom_left := by
  cases c with
  | Resistor t1 t2 ci r =>
    cases ci <;>
      simp [Mna.stamp_element, addsBL, stamp_symmetric_group1_eq,
        stamp_symmetric_group2_eq]
  | IndependentVoltageSource p n e v =>
    simp [Mna.stamp_element, addsBL, stamp_symmetric_group2_eq]
  | VoltageControlledVoltageSource p n cp cn e k =>
    simp [Mna.stamp_element, addsBL, stamp_symmetric_group2_eq,
      stamp_unsymmetric_bottom_group2_eq, applyAdds_append]
  | CurrentControlledVoltageSource p n ce e k =>
    simp [Mna.stamp_element, addsBL, stamp_symmetric_group2_eq,
      add_group2_value_eq]
  | IndependentCurrentSource p n ci i =>
    cases ci <;>
      simp [Mna.stamp_element, addsBL, stamp_unsymmetric_right_group2_eq]
  | Unsupported => simp [Mna.stamp_element, addsBL]

theorem stamp_element_br (s : Mna) (c : Component) :
    (s.stamp_element c).matrix.bottom_right =
      applyAdds (addsBR c) s.matrix.bottom_right := by
  cases c with
  | Resistor t1 t2 ci r =>
    cases ci <;>
      simp [Mna.stamp_element, addsBR, stamp_symmetric_group1_eq,
        stamp_symmetric_group2_eq, applyAdds]
  | IndependentVoltageSource p n e v =>
    simp [Mna.stamp_element, addsBR, stamp_symmetric_group2_eq, applyAdds]
  | VoltageControlledVoltageSource p n cp cn e k =>
    simp [Mna.stamp_element, addsBR, stamp_symmetric_group2_eq,
      stamp_unsymmetric_bottom_group2_eq, applyAdds]
  | CurrentControlledVoltageSource p n ce e k =>
    simp [Mna.stamp_element, addsBR, stamp_symmetric_group2_eq,
      add_group2_value_eq, applyAdds]
  | IndependentCurrentSource p n ci i =>
    cases ci <;>
      simp [Mna.stamp_element, addsBR, stamp_unsymmetric_right_group2_eq, applyAdds]
  | Unsupported => simp [Mna.stamp_element, addsBR]

theorem stamp_element_rtop (s : Mna) (c : Component) :
    (s.stamp_element c).rhs.top = applyWrites (wTop c) s.rhs.top := by
  cases c with
  | Resistor t1 t2 ci r => cases ci <;> simp [Mna.stamp_element, wTop]
  | IndependentVoltageSource p n e v =>
    simp [Mna.stamp_element, wTop, add_rhs_group2_eq]
  | VoltageControlledVoltageSource p n cp cn e k =>
    simp [Mna.stamp_element, wTop]
  | CurrentControlledVoltageSource p n ce e k =>
    simp [Mna.stamp_element, wTop]
  | IndependentCurrentSource p n ci i =>
    cases ci with
    | none =>
      simp only [Mna.stamp_element, wTop, add_rhs_group1_eq]
      by_cases hp : p = 0 <;> by_cases hn : n = 0 <;>
        simp [hp, hn, applyWrites_append, applyWrites]
    | some e => simp [Mna.stamp_element, wTop, add_rhs_group2_eq]
  | Unsupported => simp [Mna.stamp_element, wTop]

theorem stamp_element_rbot (s : Mna) (c : Component) :
    (s.stamp_element c).rhs.bottom = applyWrites (wBot c) s.rhs.bottom := by
  cases c with
  | Resistor t1 t2 ci r => cases ci <;> simp [Mna.stamp_element, wBot]
  | IndependentVoltageSource p n e v =>
    simp [Mna.stamp_element, wBot, add_rhs_group2_eq]
  | VoltageControlledVoltageSource p n cp cn e k =>
    simp [Mna.stamp_element, wBot]
  | CurrentControlledVoltageSource p n ce e k =>
    simp [Mna.stamp_element, wBot]
  | IndependentCurrentSource p n ci i =>
    cases ci with
    | none => simp [Mna.stamp_element, wBot, add_rhs_group1_eq]
    | some e => simp [Mna.stamp_element, wBot, add_rhs_group2_eq]
  | Unsupported => simp [Mna.stamp_element, wBot]

/-! ### Equivalence of builder states and order independence machinery -/

/-- Two orchestrator states agree on all logical dimensions and,
extensionally, on every sparse block. -/
structure MnaEquiv (s t : Mna) : Prop where
  nvn : s.matrix.num_voltage_nodes = t.matrix.num_voltage_nodes
  nce : s.matrix.num_current_edges = t.matrix.num_current_edges
  tl : SparseEquiv s.matrix.top_left t.matrix.top_left
  tr : SparseEquiv s.matrix.top_right t.matrix.top_right
  bl : SparseEquiv s.matrix.bottom_left t.matrix.bottom_left
  br : SparseEquiv s.matrix.bottom_right t.matrix.bottom_right
  rtop : SparseEquiv s.rhs.top t.rhs.top
  rbot : SparseEquiv s.rhs.bottom t.rhs.bottom

theorem mna_equiv_refl (s : Mna) : MnaEquiv s s :=
  ⟨rfl, rfl, sparse_equiv_refl _, sparse_equiv_refl _, sparse_equiv_refl _,
   sparse_equiv_refl _, sparse_equiv_refl _, sparse_equiv_refl _⟩

theorem mna_equiv_trans {s t u : Mna} (h1 : MnaEquiv s t) (h2 : MnaEquiv t u) :
    MnaEquiv s u :=
  ⟨h1.nvn.trans h2.nvn, h1.nce.trans h2.nce, sparse_equiv_trans h1.tl h2.tl,
   sparse_equiv_trans h1.tr h2.tr, sparse_equiv_trans h1.bl h2.bl,
   sparse_equiv_trans h1.br h2.br, sparse_equiv_trans h1.rtop h2.rtop,
   sparse_equiv_trans h1.rbot h2.rbot⟩

/-- The two components write disjoint sets of excitation-vector cells (no
shared row in the RHS top block, none in the RHS bottom block). -/
def rhsDisjoint (a b : Component) : Prop :=
  (∀ r ∈ (wTop a).map Prod.fst, r ∉ (wTop b).map Prod.fst) ∧
  (∀ r ∈ (wBot a).map Prod.fst, r ∉ (wBot b).map Prod.fst)

instance : DecidableRel rhsDisjoint := by
  intro a b
  unfold rhsDisjoint
  infer_instance

theorem rhsDisjoint_symm : Symmetric rhsDisjoint := by
  intro a b h
  refine ⟨?_, ?_⟩
  · intro r hr hmem
    exact h.1 r hmem hr
  · intro r hr hmem
    exact h.2 r hmem hr

theorem stamp_element_congr {s t : Mna} (c : Component) (h : MnaEquiv s t) :
    MnaEquiv (s.stamp_element c) (t.stamp_element c) := by
  refine ⟨?_, ?_, ?_, ?_, ?_, ?_, ?_, ?_⟩
  · rw [stamp_element_nvn, stamp_element_nvn, h.nvn]
  · rw [stamp_element_nce, stamp_element_nce, h.nce]
  · rw [stamp_element_tl, stamp_element_tl]
    exact applyAdds_congr _ h.tl
  · rw [stamp_element_tr, stamp_element_tr]
    exact applyAdds_congr _ h.tr
  · rw [stamp_element_bl, stamp_element_bl]
    exact applyAdds_congr _ h.bl
  · rw [stamp_element_br, stamp_element_br]
    exact applyAdds_congr _ h.br
  · rw [stamp_element_rtop, stamp_element_rtop]
    exact applyWrites_congr _ h.rtop
  · rw [stamp_element_rbot, stamp_element_rbot]
    exact applyWrites_congr _ h.rbot

theorem stamp_element_swap (s : Mna) (a b : Component) (hd : rhsDisjoint a b) :
    MnaEquiv ((s.stamp_element a).stamp_element b)
      ((s.stamp_element b).stamp_element a) := by
  refine ⟨?_, ?_, ?_, ?_, ?_, ?_, ?_, ?_⟩
  · simp only [stamp_element_nvn]
    omega
  · simp only [stamp_element_nce]
    omega
  · simp only [stamp_element_tl]
    exact applyAdds_comm _ _ _
  · simp only [stamp_element_tr]
    exact applyAdds_comm _ _ _
  · simp only [stamp_element_bl]
    exact applyAdds_comm _ _ _
  · simp only [stamp_element_br]
    exact applyAdds_comm _ _ _
  · simp only [stamp_element_rtop]
    exact applyWrites_comm _ _ _ hd.1
  · simp only [stamp_element_rbot]
    exact applyWrites_comm _ _ _ hd.2

@[simp] theorem stampList_nil (s : Mna) : s.stampList [] = s := rfl

@[simp] theorem stampList_cons (s : Mna) (c : Component) (l : List Component) :
    s.stampList (c :: l) = (s.stamp_element c).stampList l := rfl

theorem stampList_congr (l : List Component) :
    ∀ {s t : Mna}, MnaEquiv s t → MnaEquiv (s.stampList l) (t.stampList l) := by
  induction l with
  | nil => exact fun h => h
  | cons c l ih =>
    intro s t h
    rw [stampList_cons, stampList_cons]
    exact ih (stamp_element_congr c h)

theorem stampList_perm {l1 l2 : List Component} (hp : l1.Perm l2) :
    ∀ s : Mna, l1.Pairwise rhsDisjoint →
      MnaEquiv (s.stampList l1) (s.stampList l2) := by
  induction hp with
  | nil => exact fun s _ => mna_equiv_refl s
  | cons x hp ih =>
    intro s hpair
    rw [stampList_cons, stampList_cons]
    exact ih _ (List.Pairwise.of_cons hpair)
  | swap x y l =>
    intro s hpair
    rw [stampList_cons, stampList_cons, stampList_cons, stampList_cons]
    have hyx : rhsDisjoint y x := (List.pairwise_cons.mp hpair).1 x (by simp)
    exact stampList_congr l (stamp_element_swap s y x hyx)
  | trans hp1 hp2 ih1 ih2 =>
    intro s hpair
    refine mna_equiv_trans (ih1 s hpair) (ih2 s ?_)
    exact (hp1.pairwise_iff (fun h => rhsDisjoint_symm h)).mp hpair

theorem add_element_stamp_ok (s : Mna) (c : Component) (h : c.ok = true) :
    s.add_element_stamp c = .ok (s.stamp_element c) := by
  cases c with
  | Resistor t1 t2 ci r =>
    simp only [Component.ok] at h
    cases ci <;>
      simp [Mna.add_element_stamp, Mna.stamp_element,
        MnaMatrix.add_symmetric_group1, MnaMatrix.add_symmetric_group2,
        decide_eq_true_eq.mp h]
  | IndependentVoltageSource p n e v =>
    simp only [Component.ok] at h
    simp [Mna.add_element_stamp, Mna.stamp_element,
      MnaMatrix.add_symmetric_group2, decide_eq_true_eq.mp h]
  | VoltageControlledVoltageSource p n cp cn e k =>
    simp only [Component.ok, Bool.and_eq_true, decide_eq_true_eq] at h
    simp [Mna.add_element_stamp, Mna.stamp_element,
      MnaMatrix.add_symmetric_group2, MnaMatrix.add_unsymmetric_bottom_group2,
      h.1, h.2]
  | CurrentControlledVoltageSource p n ce e k =>
    simp only [Component.ok] at h
    simp [Mna.add_element_stamp, Mna.stamp_element,
      MnaMatrix.add_symmetric_group2, decide_eq_true_eq.mp h]
  | IndependentCurrentSource p n ci i =>
    cases ci with
    | none => simp [Mna.add_element_stamp, Mna.stamp_element]
    | some e =>
      simp only [Component.ok] at h
      simp [Mna.add_element_stamp, Mna.stamp_element,
        MnaMatrix.add_unsymmetric_right_group2, decide_eq_true_eq.mp h]
  | Unsupported => simp [Component.ok] at h

theorem stampAll_ok (l : List Component) :
    ∀ s : Mna, (∀ c ∈ l, c.ok = true) → s.stampAll l = .ok (s.stampList l) := by
  induction l with
  | nil => intro s _; rfl
  | cons c l ih =>
    intro s h
    rw [Mna.stampAll, add_element_stamp_ok s c (h c (by simp)), stampList_cons]
    exact ih _ (fun c' hc' => h c' (by simp [hc']))

theorem get_matrix_matEq {s t : Mna} (h : MnaEquiv s t) :
    s.matrix.get_matrix.matEq t.matrix.get_matrix := by
  refine ⟨?_, ?_, ?_⟩
  · simp [MnaMatrix.get_matrix, concat_vertical, concat_horizontal,
      SparseMat.resize, h.nvn, h.nce]
  · simp [MnaMatrix.get_matrix, concat_vertical, concat_horizontal,
      SparseMat.resize, h.nvn, h.nce]
  · intro i j
    simp only [MnaMatrix.get_matrix, concat_vertical, concat_horizontal,
      SparseMat.resize]
    simp only [h.nvn, h.nce, h.tl.val_eq, h.tr.val_eq, h.bl.val_eq, h.br.val_eq]

/-- Invariant of the RHS column blocks: stored keys are distinct and all in
column 1 (every RHS stamp writes column 1). -/
structure RhsInv (m : SparseMat) : Prop where
  nodup : m.keys.Nodup
  col1 : ∀ k ∈ m.keys, k.2 = 1

theorem RhsInv.empty : RhsInv SparseMat.empty :=
  ⟨List.nodup_nil, by intro k hk; simp [SparseMat.empty] at hk⟩

theorem RhsInv.insert {m : SparseMat} (hm : RhsInv m) (r : Nat) (v : ℚ) :
    RhsInv (m.insert_unbounded r 1 v) := by
  constructor
  · simp only [SparseMat.insert_unbounded]
    split
    · exact hm.nodup
    · rename_i hmem
      simp [List.nodup_append, hm.nodup]
      exact hmem
  · intro k hk
    rw [SparseMat.insert_mem_keys] at hk
    rcases hk with hk | hk
    · exact hm.col1 k hk
    · rw [hk]

theorem RhsInv.applyWrites {m : SparseMat} (hm : RhsInv m) :
    ∀ l : List (Nat × ℚ), RhsInv (applyWrites l m) := by
  intro l
  induction l generalizing m with
  | nil => exact hm
  | cons w l ih => exact ih (hm.insert w.1 w.2)

theorem stampList_rhsInv (l : List Component) :
    ∀ s : Mna, RhsInv s.rhs.top → RhsInv s.rhs.bottom →
      RhsInv (s.stampList l).rhs.top ∧ RhsInv (s.stampList l).rhs.bottom := by
  induction l with
  | nil => exact fun s ht hb => ⟨ht, hb⟩
  | cons c l ih =>
    intro s ht hb
    rw [stampList_cons]
    refine ih _ ?_ ?_
    · rw [stamp_element_rtop]
      exact ht.applyWrites _
    · rw [stamp_element_rbot]
      exact hb.applyWrites _

theorem foldWrites_cons_lt (out : List ℚ) (w : Nat × ℚ) (l : List (Nat × ℚ))
    (h : w.1 < out.length) :
    foldWrites out (w :: l) = foldWrites (out.set w.1 w.2) l := by
  simp [foldWrites, writeChecked, h]

theorem foldWrites_cons_ge (out : List ℚ) (w : Nat × ℚ) (l : List (Nat × ℚ))
    (h : ¬w.1 < out.length) :
    foldWrites out (w :: l) = .error "index out of bounds" := by
  simp [foldWrites, writeChecked, h]

theorem foldWrites_length (l : List (Nat × ℚ)) :
    ∀ out out' : List ℚ, foldWrites out l = .ok out' → out'.length = out.length := by
  induction l with
  | nil =>
    intro out out' h
    simp only [foldWrites] at h
    cases h
    rfl
  | cons w l ih =>
    intro out out' h
    by_cases hlt : w.1 < out.length
    · rw [foldWrites_cons_lt _ _ _ hlt] at h
      rw [ih _ _ h]
      simp
    · rw [foldWrites_cons_ge _ _ _ hlt] at h
      cases h

theorem foldWrites_oob (l : List (Nat × ℚ)) :
    ∀ out : List ℚ, (∃ w ∈ l, out.length ≤ w.1) →
      foldWrites out l = .error "index out of bounds" := by
  induction l with
  | nil =>
    intro out h
    obtain ⟨w, hw, -⟩ := h
    simp at hw
  | cons w l ih =>
    intro out h
    by_cases hlt : w.1 < out.length
    · rw [foldWrites_cons_lt _ _ _ hlt]
      obtain ⟨w', hw', hge⟩ := h
      rcases List.mem_cons.mp hw' with h' | hw'
      · subst h'
        omega
      · refine ih _ ⟨w', hw', ?_⟩
        simpa using hge
    · exact foldWrites_cons_ge _ _ _ hlt

theorem foldWrites_perm {l1 l2 : List (Nat × ℚ)} (hp : l1.Perm l2) :
    ∀ out : List ℚ, (l1.map Prod.fst).Nodup →
      foldWrites out l1 = foldWrites out l2 := by
  induction hp with
  | nil => intro out _; rfl
  | cons x hp ih =>
    intro out hnd
    by_cases hlt : x.1 < out.length
    · rw [foldWrites_cons_lt _ _ _ hlt, foldWrites_cons_lt _ _ _ hlt]
      exact ih _ (List.nodup_cons.mp (by simpa using hnd)).2
    · rw [foldWrites_cons_ge _ _ _ hlt, foldWrites_cons_ge _ _ _ hlt]
  | swap x y l =>
    intro out hnd
    have hne : y.1 ≠ x.1 := by
      simp only [List.map_cons, List.nodup_cons, List.mem_cons] at hnd
      exact fun h => hnd.1 (Or.inl h)
    by_cases hy : y.1 < out.length <;> by_cases hx : x.1 < out.length
    · rw [foldWrites_cons_lt _ _ _ hy, foldWrites_cons_lt _ _ _ hx,
        foldWrites_cons_lt _ _ _ (by simpa using hx),
        foldWrites_cons_lt _ _ _ (by simpa using hy),
        List.set_comm _ _ _ hne]
    · rw [foldWrites_cons_lt _ _ _ hy, foldWrites_cons_ge _ _ _ (by simpa using hx),
        foldWrites_cons_ge _ _ _ hx]
    · rw [foldWrites_cons_ge _ _ _ hy, foldWrites_cons_lt _ _ _ hx,
        foldWrites_cons_ge _ _ _ (by simpa using hy)]
    · rw [foldWrites_cons_ge _ _ _ hy, foldWrites_cons_ge _ _ _ hx]
  | trans hp1 hp2 ih1 ih2 =>
    intro out hnd
    rw [ih1 out hnd, ih2 out ((hp1.map Prod.fst).nodup_iff.mp hnd)]

theorem keys_fst_nodup {m : SparseMat} (h : RhsInv m) (f : Nat → Nat)
    (hf : Function.Injective f) :
    (m.keys.map (fun k => f k.1)).Nodup := by
  refine List.Nodup.map_on ?_ h.nodup
  intro k1 h1 k2 h2 heq
  have hfst := hf heq
  have c1 := h.col1 k1 h1
  have c2 := h.col1 k2 h2
  cases k1
  cases k2
  simp_all

theorem get_vector_congr {r1 r2 : MnaRhs}
    (h_top : SparseEquiv r1.top r2.top) (h_bot : SparseEquiv r1.bottom r2.bottom)
    (i1t : RhsInv r1.top) (i2t : RhsInv r2.top)
    (i1b : RhsInv r1.bottom) (i2b : RhsInv r2.bottom) (nvn nce : Nat) :
    r1.get_vector nvn nce = r2.get_vector nvn nce := by
  have hkt : r1.top.keys.Perm r2.top.keys :=
    (List.perm_ext_iff_of_nodup i1t.nodup i2t.nodup).mpr h_top.keys_mem
  have hkb : r1.bottom.keys.Perm r2.bottom.keys :=
    (List.perm_ext_iff_of_nodup i1b.nodup i2b.nodup).mpr h_bot.keys_mem
  have et : ∀ r : MnaRhs, r.top.non_zero_vals.map (fun kv => (kv.1.1, kv.2)) =
      r.top.keys.map (fun k => (k.1, r.top.val k.1 k.2)) := by
    intro r
    simp [SparseMat.non_zero_vals]
  have eb : ∀ r : MnaRhs, r.bottom.non_zero_vals.map (fun kv => (nvn + kv.1.1, kv.2)) =
      r.bottom.keys.map (fun k => (nvn + k.1, r.bottom.val k.1 k.2)) := by
    intro r
    simp [SparseMat.non_zero_vals]
  have hft : (fun k : Nat × Nat => (k.1, r1.top.val k.1 k.2)) =
      (fun k : Nat × Nat => (k.1, r2.top.val k.1 k.2)) := by
    funext k
    rw [h_top.val_eq]
  have hfb : (fun k : Nat × Nat => (nvn + k.1, r1.bottom.val k.1 k.2)) =
      (fun k : Nat × Nat => (nvn + k.1, r2.bottom.val k.1 k.2)) := by
    funext k
    rw [h_bot.val_eq]
  have hpt : (r1.top.non_zero_vals.map (fun kv => (kv.1.1, kv.2))).Perm
      (r2.top.non_zero_vals.map (fun kv => (kv.1.1, kv.2))) := by
    rw [et, et, hft]
    exact hkt.map _
  have hpb : (r1.bottom.non_zero_vals.map (fun kv => (nvn + kv.1.1, kv.2))).Perm
      (r2.bottom.non_zero_vals.map (fun kv => (nvn + kv.1.1, kv.2))) := by
    rw [eb, eb, hfb]
    exact hkb.map _
  have hndt : ((r1.top.non_zero_vals.map (fun kv => (kv.1.1, kv.2))).map Prod.fst).Nodup := by
    rw [et, List.map_map]
    have : (Prod.fst ∘ fun k : Nat × Nat => (k.1, r1.top.val k.1 k.2)) =
        (fun k : Nat × Nat => k.1) := by
      funext k
      rfl
    rw [this]
    exact keys_fst_nodup i1t (fun t => t) (fun a b h => h)
  have hndb : ((r1.bottom.non_zero_vals.map (fun kv => (nvn + kv.1.1, kv.2))).map Prod.fst).Nodup := by
    rw [eb, List.map_map]
    have : (Prod.fst ∘ fun k : Nat × Nat => (nvn + k.1, r1.bottom.val k.1 k.2)) =
        (fun k : Nat × Nat => nvn + k.1) := by
      funext k
      rfl
    rw [this]
    exact keys_fst_nodup i1b (fun t => nvn + t) (fun a b h => Nat.add_left_cancel h)
  simp only [MnaRhs.get_vector]
  rw [foldWrites_perm hpt _ hndt]
  cases hres : foldWrites (List.replicate (nvn + nce) (0 : ℚ))
      (r2.top.non_zero_vals.map (fun kv => (kv.1.1, kv.2))) with
  | error e => rfl
  | ok out' =>
    exact foldWrites_perm hpb out' hndb

/-- Relate two possibly-panicking results componentwise (same panic message,
or related successful values). -/
def exceptRel {α β : Type} (R : α → β → Prop) :
    Except String α → Except String β → Prop
  | .error e1, .error e2 => e1 = e2
  | .ok a, .ok b => R a b
  | _, _ => False

theorem get_system_rel {s t : Mna} (h : MnaEquiv s t)
    (ist : RhsInv s.rhs.top) (isb : RhsInv s.rhs.bottom)
    (itt : RhsInv t.rhs.top) (itb : RhsInv t.rhs.bottom) :
    exceptRel (fun p q => p.1.matEq q.1 ∧ p.2 = q.2)
      s.get_system t.get_system := by
  simp only [Mna.get_system]
  have hv : s.rhs.get_vector s.matrix.num_voltage_nodes s.matrix.num_current_edges =
      t.rhs.get_vector t.matrix.num_voltage_nodes t.matrix.num_current_edges := by
    rw [h.nvn, h.nce]
    exact get_vector_congr h.rtop h.rbot ist itt isb itb _ _
  rw [hv]
  cases t.rhs.get_vector t.matrix.num_voltage_nodes t.matrix.num_current_edges with
  | error e => exact rfl
  | ok v => exact ⟨get_matrix_matEq h, rfl⟩

theorem get_matrix_rows (m : MnaMatrix) :
    m.get_matrix.rows = m.num_voltage_nodes + m.num_current_edges := by
  simp [MnaMatrix.get_matrix, concat_vertical, concat_horizontal, SparseMat.resize]

theorem get_matrix_cols (m : MnaMatrix) :
    m.get_matrix.cols = m.num_voltage_nodes + m.num_current_edges := by
  simp [MnaMatrix.get_matrix, concat_vertical, concat_horizontal, SparseMat.resize]

theorem get_vector_length {r : MnaRhs} {nvn nce : Nat} {v : List ℚ}
    (h : r.get_vector nvn nce = .ok v) : v.length = nvn + nce := by
  simp only [MnaRhs.get_vector] at h
  cases h1 : foldWrites (List.replicate (nvn + nce) (0 : ℚ))
      (r.top.non_zero_vals.map (fun kv => (kv.1.1, kv.2))) with
  | error e =>
    simp only [h1] at h
    exact absurd h (by simp)
  | ok out1 =>
    simp only [h1] at h
    have l1 := foldWrites_length _ _ _ h1
    have l2 := foldWrites_length _ _ _ h
    simp only [List.length_replicate] at l1
    omega

/-! ### Claim theorems -/

/-- C6 counterexample: a stamp call with equal terminal indices does not
signal a recoverable condition — it hits the source's `panic!` (a process
abort, modelled by `.error`), carrying the panic message. -/
theorem C6_counterexample :
    MnaMatrix.new.add_symmetric_group1 1 1 1 1 =
      .error "Cannot set symmetric group 1 where n1 == n2" := rfl

/-- C6 (amended): whenever any of the four terminal-taking stamp calls
receives equal terminal indices, it fails by panicking (process abort,
modelled by `.error`) with an explicit message, rather than silently
proceeding; no updated matrix state is produced. -/
theorem C6_equal_terminals_panic (m : MnaMatrix) (n1 n2 e : Nat) (x1 x2 y : ℚ)
    (h : n1 = n2) :
    m.add_symmetric_group1 n1 n2 x1 x2 =
      .error "Cannot set symmetric group 1 where n1 == n2" ∧
    m.add_symmetric_group2 n1 n2 e x1 x2 y =
      .error "Cannot set symmetric group 2 where n1 == n2" ∧
    m.add_unsymmetric_right_group2 n1 n2 e x1 x2 y =
      .error "Cannot set unsymmetric group (right) 2 where n1 == n2" ∧
    m.add_unsymmetric_bottom_group2 n1 n2 e x1 x2 y =
      .error "Cannot set unsymmetric group (bottom) 2 where n1 == n2" := by
  subst h
  refine ⟨?_, ?_, ?_, ?_⟩ <;>
    simp [MnaMatrix.add_symmetric_group1, MnaMatrix.add_symmetric_group2,
      MnaMatrix.add_unsymmetric_right_group2, MnaMatrix.add_unsymmetric_bottom_group2]

/-- C6 witness: concrete instance of `C6_equal_terminals_panic` at
`n1 = n2 = 1`. -/
theorem C6_witness :
    MnaMatrix.new.add_symmetric_group2 1 1 0 1 1 1 =
      .error "Cannot set symmetric group 2 where n1 == n2" :=
  (C6_equal_terminals_panic MnaMatrix.new 1 1 0 1 1 1 rfl).2.1

/-- C7: whenever `get_system` returns, the assembled coefficient matrix is
square of side `num_voltage_nodes + num_current_edges` and the returned
vector has exactly that length; finalizing the fresh builder (zero stamps)
yields a 0-by-0 matrix and an empty vector. -/
theorem C7_system_dimensions :
    (∀ (s : Mna) (mat : SparseMat) (vec : List ℚ),
        s.get_system = .ok (mat, vec) →
        mat.rows = s.num_voltage_nodes + s.num_current_edges ∧
        mat.cols = s.num_voltage_nodes + s.num_current_edges ∧
        vec.length = s.num_voltage_nodes + s.num_current_edges) ∧
    (Mna.new.get_system = .ok (MnaMatrix.new.get_matrix, []) ∧
      MnaMatrix.new.get_matrix.rows = 0 ∧ MnaMatrix.new.get_matrix.cols = 0) := by
  constructor
  · intro s mat vec h
    simp only [Mna.get_system] at h
    cases hv : s.rhs.get_vector s.matrix.num_voltage_nodes s.matrix.num_current_edges with
    | error e =>
      simp only [hv] at h
      exact absurd h (by simp)
    | ok v =>
      simp only [hv, Except.ok.injEq, Prod.mk.injEq] at h
      obtain ⟨hmat, hvec⟩ := h
      subst hmat
      subst hvec
      exact ⟨get_matrix_rows _, get_matrix_cols _, get_vector_length hv⟩
  · exact ⟨rfl, rfl, rfl⟩

/-- C7 witness: instance of the first conjunct of `C7_system_dimensions` on
the system of one grounded resistor (one voltage node, no current edges). -/
theorem C7_witness :
    (Mna.new.stampList [Component.Resistor 1 0 none 1]).get_system =
      .ok ((Mna.new.stampList [Component.Resistor 1 0 none 1]).matrix.get_matrix,
        [0]) ∧
    (Mna.new.stampList [Component.Resistor 1 0 none 1]).matrix.get_matrix.rows = 1 := by
  have h : (Mna.new.stampList [Component.Resistor 1 0 none 1]).get_system =
      .ok ((Mna.new.stampList [Component.Resistor 1 0 none 1]).matrix.get_matrix,
        [0]) := rfl
  have := (C7_system_dimensions.1 _ _ _ h).1
  exact ⟨h, by rw [this]; rfl⟩

/-- C8: the edge-indexed excitation stamp is a direct overwrite: stamping
`(e, x1)` then `(e, x2)` leaves the finalized vector holding exactly `x2`
(not `x1 + x2`) at row `num_voltage_nodes + e`; the first value is silently
discarded. -/
theorem C8_rhs_group2_overwrites (e nvn nce : Nat) (x1 x2 : ℚ) (he : e < nce) :
    ((MnaRhs.new.add_rhs_group2 e x1).add_rhs_group2 e x2).get_vector nvn nce =
      .ok ((List.replicate (nvn + nce) (0 : ℚ)).set (nvn + e) x2) := by
  have hkey : ((e, 1) : Nat × Nat) ∈ (SparseMat.empty.insert_unbounded e 1 x1).keys := by
    simp [SparseMat.insert_unbounded, SparseMat.empty]
  have hlen : nvn + e < nvn + nce := by omega
  simp [MnaRhs.get_vector, MnaRhs.new, MnaRhs.add_rhs_group2,
    SparseMat.non_zero_vals, SparseMat.insert_unbounded, SparseMat.empty,
    foldWrites, writeChecked, hlen]

/-- C8 witness: concrete instance of `C8_rhs_group2_overwrites`; the
finalized vector holds `5`, not `3 + 5`. -/
theorem C8_witness :
    ((MnaRhs.new.add_rhs_group2 0 3).add_rhs_group2 0 5).get_vector 1 1 =
      .ok [0, 5] := by
  have h := C8_rhs_group2_overwrites 0 1 1 3 5 (by decide)
  simpa using h

/-- C9 counterexample: dispatch on an element kind with no stamp rule does
not signal a distinguished "unsupported element kind" condition — it hits
the source's `todo!("Not currently implemented")`, a generic panic (process
abort, modelled by `.error` with the todo message). -/
theorem C9_counterexample :
    Mna.new.add_element_stamp Component.Unsupported =
      .error "Not currently implemented" := rfl

/-- C9 (amended): for an element kind with no stamp rule,
`add_element_stamp` panics via `todo!` with the generic message
"Not currently implemented" (a process abort, not a distinguished
recoverable condition), and no stamp is applied to either builder (no
state is produced). -/
theorem C9_unsupported_panics (s : Mna) :
    s.add_element_stamp Component.Unsupported =
      .error "Not currently implemented" := rfl

@[simp] theorem addsSum_nil (i j : Nat) : addsSum [] i j = 0 := rfl

@[simp] theorem addsSum_cons (a : (Nat × Nat) × ℚ) (l : List ((Nat × Nat) × ℚ))
    (i j : Nat) :
    addsSum (a :: l) i j =
      (if a.1.1 = i ∧ a.1.2 = j then a.2 else 0) + addsSum l i j := by
  simp [addsSum]

theorem addsSum_append (l1 l2 : List ((Nat × Nat) × ℚ)) (i j : Nat) :
    addsSum (l1 ++ l2) i j = addsSum l1 i j + addsSum l2 i j := by
  simp [addsSum]

/-- C1: with distinct terminals, the node-node stamp succeeds; the
voltage-node count grows to `max` of its old value and `max n1 n2`; when
exactly one terminal is ground, `x1` is accumulated into the surviving
terminal's top-left diagonal entry only and no other matrix cell changes
(no index "ground minus one" is ever written); when both terminals are
non-ground, `x1` is accumulated into both diagonal entries and `x2` into
both symmetric off-diagonal entries, and every other cell is unchanged. -/
theorem C1_add_symmetric_group1 (m : MnaMatrix) (n1 n2 : Nat) (x1 x2 : ℚ)
    (h : n1 ≠ n2) :
    m.add_symmetric_group1 n1 n2 x1 x2 =
      .ok (m.stamp_symmetric_group1 n1 n2 x1 x2) ∧
    (m.stamp_symmetric_group1 n1 n2 x1 x2).num_voltage_nodes =
      max m.num_voltage_nodes (max n1 n2) ∧
    (m.stamp_symmetric_group1 n1 n2 x1 x2).num_current_edges =
      m.num_current_edges ∧
    (m.stamp_symmetric_group1 n1 n2 x1 x2).top_right = m.top_right ∧
    (m.stamp_symmetric_group1 n1 n2 x1 x2).bottom_left = m.bottom_left ∧
    (m.stamp_symmetric_group1 n1 n2 x1 x2).bottom_right = m.bottom_right ∧
    (n2 = 0 →
      (m.stamp_symmetric_group1 n1 n2 x1 x2).top_left.val (n1 - 1) (n1 - 1) =
        m.top_left.val (n1 - 1) (n1 - 1) + x1 ∧
      ∀ i j, ¬(i = n1 - 1 ∧ j = n1 - 1) →
        (m.stamp_symmetric_group1 n1 n2 x1 x2).top_left.val i j =
          m.top_left.val i j) ∧
    (n1 = 0 →
      (m.stamp_symmetric_group1 n1 n2 x1 x2).top_left.val (n2 - 1) (n2 - 1) =
        m.top_left.val (n2 - 1) (n2 - 1) + x1 ∧
      ∀ i j, ¬(i = n2 - 1 ∧ j = n2 - 1) →
        (m.stamp_symmetric_group1 n1 n2 x1 x2).top_left.val i j =
          m.top_left.val i j) ∧
    (n1 ≠ 0 → n2 ≠ 0 →
      (m.stamp_symmetric_group1 n1 n2 x1 x2).top_left.val (n1 - 1) (n1 - 1) =
        m.top_left.val (n1 - 1) (n1 - 1) + x1 ∧
      (m.stamp_symmetric_group1 n1 n2 x1 x2).top_left.val (n2 - 1) (n2 - 1) =
        m.top_left.val (n2 - 1) (n2 - 1) + x1 ∧
      (m.stamp_symmetric_group1 n1 n2 x1 x2).top_left.val (n1 - 1) (n2 - 1) =
        m.top_left.val (n1 - 1) (n2 - 1) + x2 ∧
      (m.stamp_symmetric_group1 n1 n2 x1 x2).top_left.val (n2 - 1) (n1 - 1) =
        m.top_left.val (n2 - 1) (n1 - 1) + x2 ∧
      ∀ i j, ¬(i = n1 - 1 ∧ j = n1 - 1) → ¬(i = n2 - 1 ∧ j = n2 - 1) →
        ¬(i = n1 - 1 ∧ j = n2 - 1) → ¬(i = n2 - 1 ∧ j = n1 - 1) →
        (m.stamp_symmetric_group1 n1 n2 x1 x2).top_left.val i j =
          m.top_left.val i j) := by
  refine ⟨by simp [MnaMatrix.add_symmetric_group1, h], ?_, ?_, ?_, ?_, ?_, ?_, ?_, ?_⟩
  · simp [stamp_symmetric_group1_eq]
  · simp [stamp_symmetric_group1_eq]
  · simp [stamp_symmetric_group1_eq]
  · simp [stamp_symmetric_group1_eq]
  · simp [stamp_symmetric_group1_eq]
  · intro h2
    have h1 : n1 ≠ 0 := by omega
    subst h2
    constructor
    · simp [stamp_symmetric_group1_eq, applyAdds_val, plus_equals_val, g1adds, h1]
    · intro i j hij
      have hcell : ¬(n1 - 1 = i ∧ n1 - 1 = j) := by
        intro hc
        exact hij ⟨hc.1.symm, hc.2.symm⟩
      simp [stamp_symmetric_group1_eq, applyAdds_val, plus_equals_val, g1adds, h1, hcell, hij]
  · intro h1
    have h2 : n2 ≠ 0 := by omega
    subst h1
    constructor
    · simp [stamp_symmetric_group1_eq, applyAdds_val, plus_equals_val, g1adds]
    · intro i j hij
      have hcell : ¬(n2 - 1 = i ∧ n2 - 1 = j) := by
        intro hc
        exact hij ⟨hc.1.symm, hc.2.symm⟩
      simp [stamp_symmetric_group1_eq, applyAdds_val, plus_equals_val, g1adds, hcell, hij]
  · intro h1 h2
    have hd : n1 - 1 ≠ n2 - 1 := by omega
    refine ⟨?_, ?_, ?_, ?_, ?_⟩
    · simp [stamp_symmetric_group1_eq, applyAdds_val, plus_equals_val, g1adds, h1, h2, hd, hd.symm]
    · simp [stamp_symmetric_group1_eq, applyAdds_val, plus_equals_val, g1adds, h1, h2, hd, hd.symm]
    · simp [stamp_symmetric_group1_eq, applyAdds_val, plus_equals_val, g1adds, h1, h2, hd, hd.symm]
    · simp [stamp_symmetric_group1_eq, applyAdds_val, plus_equals_val, g1adds, h1, h2, hd, hd.symm]
    · intro i j hc1 hc2 hc3 hc4
      have k1 : ¬(n1 - 1 = i ∧ n1 - 1 = j) := fun hc => hc1 ⟨hc.1.symm, hc.2.symm⟩
      have k2 : ¬(n2 - 1 = i ∧ n2 - 1 = j) := fun hc => hc2 ⟨hc.1.symm, hc.2.symm⟩
      have k3 : ¬(n1 - 1 = i ∧ n2 - 1 = j) := fun hc => hc3 ⟨hc.1.symm, hc.2.symm⟩
      have k4 : ¬(n2 - 1 = i ∧ n1 - 1 = j) := fun hc => hc4 ⟨hc.1.symm, hc.2.symm⟩
      simp [stamp_symmetric_group1_eq, applyAdds_val, plus_equals_val, g1adds, h1, h2,
        hd, k1, k2, k3, k4, hc1, hc2, hc3, hc4]

/-- C1 witness: instance of `C1_add_symmetric_group1` on a fresh matrix with
terminals 2 and 3 (both non-ground): both diagonal entries receive the
diagonal value, the off-diagonal entry the off value. -/
theorem C1_witness :
    MnaMatrix.new.add_symmetric_group1 2 3 5 7 =
      .ok (MnaMatrix.new.stamp_symmetric_group1 2 3 5 7) ∧
    (MnaMatrix.new.stamp_symmetric_group1 2 3 5 7).top_left.val 1 1 = 0 + 5 ∧
    (MnaMatrix.new.stamp_symmetric_group1 2 3 5 7).top_left.val 2 2 = 0 + 5 ∧
    (MnaMatrix.new.stamp_symmetric_group1 2 3 5 7).top_left.val 1 2 = 0 + 7 ∧
    (MnaMatrix.new.stamp_symmetric_group1 2 3 5 7).num_voltage_nodes = 3 := by
  have h := C1_add_symmetric_group1 MnaMatrix.new 2 3 5 7 (by decide)
  obtain ⟨hok, hnvn, -, -, -, -, -, -, hboth⟩ := h
  obtain ⟨d1, d2, o12, -, -⟩ := hboth (by decide) (by decide)
  exact ⟨hok, d1, d2, o12, hnvn⟩

/-- C3 counterexample: the right-only variant does modify the bottom-right
diagonal cell `(e, e)` (it accumulates `y` there), contradicting the claim
that all blocks other than top-right are left unchanged; the bottom-only
variant does the same. -/
theorem C3_counterexample :
    (MnaMatrix.new.stamp_unsymmetric_right_group2 1 0 0 1 (-1) 1).bottom_right.val 0 0 = 1 ∧
    MnaMatrix.new.bottom_right.val 0 0 = 0 ∧
    MnaMatrix.new.add_unsymmetric_right_group2 1 0 0 1 (-1) 1 =
      .ok (MnaMatrix.new.stamp_unsymmetric_right_group2 1 0 0 1 (-1) 1) ∧
    (MnaMatrix.new.stamp_unsymmetric_bottom_group2 1 0 0 1 (-1) 1).bottom_right.val 0 0 = 1 := by
  refine ⟨?_, by simp [MnaMatrix.new, SparseMat.empty], rfl, ?_⟩ <;>
    simp [stamp_unsymmetric_right_group2_eq, stamp_unsymmetric_bottom_group2_eq,
      applyAdds_val, plus_equals_val, MnaMatrix.new, SparseMat.empty]

/-- C3 (amended): with distinct terminals, the right-only variant writes the
conditional top-right entries and accumulates `y` into bottom-right `(e,e)`,
leaving top-left and bottom-left unchanged; the bottom-only variant writes
the conditional bottom-left entries and accumulates `y` into bottom-right
`(e,e)`, leaving top-left and top-right unchanged; preconditions (`n1 ≠ n2`,
panicking otherwise) and dimension growth are identical to the symmetric
stamp. -/
theorem C3_unsymmetric_variants (m : MnaMatrix) (n1 n2 e : Nat) (x1 x2 y : ℚ)
    (h : n1 ≠ n2) :
    m.add_unsymmetric_right_group2 n1 n2 e x1 x2 y =
      .ok (m.stamp_unsymmetric_right_group2 n1 n2 e x1 x2 y) ∧
    m.add_unsymmetric_bottom_group2 n1 n2 e x1 x2 y =
      .ok (m.stamp_unsymmetric_bottom_group2 n1 n2 e x1 x2 y) ∧
    (m.stamp_unsymmetric_right_group2 n1 n2 e x1 x2 y).num_voltage_nodes =
      max m.num_voltage_nodes (max n1 n2) ∧
    (m.stamp_unsymmetric_right_group2 n1 n2 e x1 x2 y).num_current_edges =
      max m.num_current_edges (e + 1) ∧
    (m.stamp_unsymmetric_bottom_group2 n1 n2 e x1 x2 y).num_voltage_nodes =
      max m.num_voltage_nodes (max n1 n2) ∧
    (m.stamp_unsymmetric_bottom_group2 n1 n2 e x1 x2 y).num_current_edges =
      max m.num_current_edges (e + 1) ∧
    (m.stamp_symmetric_group2 n1 n2 e x1 x2 y).num_voltage_nodes =
      max m.num_voltage_nodes (max n1 n2) ∧
    (m.stamp_symmetric_group2 n1 n2 e x1 x2 y).num_current_edges =
      max m.num_current_edges (e + 1) ∧
    (m.stamp_unsymmetric_right_group2 n1 n2 e x1 x2 y).top_left = m.top_left ∧
    (m.stamp_unsymmetric_right_group2 n1 n2 e x1 x2 y).bottom_left = m.bottom_left ∧
    (m.stamp_unsymmetric_right_group2 n1 n2 e x1 x2 y).bottom_right.val e e =
      m.bottom_right.val e e + y ∧
    (∀ i j, ¬(i = e ∧ j = e) →
      (m.stamp_unsymmetric_right_group2 n1 n2 e x1 x2 y).bottom_right.val i j =
        m.bottom_right.val i j) ∧
    (n1 ≠ 0 →
      (m.stamp_unsymmetric_right_group2 n1 n2 e x1 x2 y).top_right.val (n1 - 1) e =
        m.top_right.val (n1 - 1) e + x1) ∧
    (n2 ≠ 0 →
      (m.stamp_unsymmetric_right_group2 n1 n2 e x1 x2 y).top_right.val (n2 - 1) e =
        m.top_right.val (n2 - 1) e + x2) ∧
    (∀ i j, ¬(i = n1 - 1 ∧ j = e) → ¬(i = n2 - 1 ∧ j = e) →
      (m.stamp_unsymmetric_right_group2 n1 n2 e x1 x2 y).top_right.val i j =
        m.top_right.val i j) ∧
    (m.stamp_unsymmetric_bottom_group2 n1 n2 e x1 x2 y).top_left = m.top_left ∧
    (m.stamp_unsymmetric_bottom_group2 n1 n2 e x1 x2 y).top_right = m.top_right ∧
    (m.stamp_unsymmetric_bottom_group2 n1 n2 e x1 x2 y).bottom_right.val e e =
      m.bottom_right.val e e + y ∧
    (∀ i j, ¬(i = e ∧ j = e) →
      (m.stamp_unsymmetric_bottom_group2 n1 n2 e x1 x2 y).bottom_right.val i j =
        m.bottom_right.val i j) ∧
    (n1 ≠ 0 →
      (m.stamp_unsymmetric_bottom_group2 n1 n2 e x1 x2 y).bottom_left.val e (n1 - 1) =
        m.bottom_left.val e (n1 - 1) + x1) ∧
    (n2 ≠ 0 →
      (m.stamp_unsymmetric_bottom_group2 n1 n2 e x1 x2 y).bottom_left.val e (n2 - 1) =
        m.bottom_left.val e (n2 - 1) + x2) ∧
    (∀ i j, ¬(i = e ∧ j = n1 - 1) → ¬(i = e ∧ j = n2 - 1) →
      (m.stamp_unsymmetric_bottom_group2 n1 n2 e x1 x2 y).bottom_left.val i j =
        m.bottom_left.val i j) := by
  refine ⟨by simp [MnaMatrix.add_unsymmetric_right_group2, h],
    by simp [MnaMatrix.add_unsymmetric_bottom_group2, h],
    by simp [stamp_unsymmetric_right_group2_eq],
    by simp [stamp_unsymmetric_right_group2_eq],
    by simp [stamp_unsymmetric_bottom_group2_eq],
    by simp [stamp_unsymmetric_bottom_group2_eq],
    by simp [stamp_symmetric_group2_eq],
    by simp [stamp_symmetric_group2_eq],
    by simp [stamp_unsymmetric_right_group2_eq],
    by simp [stamp_unsymmetric_right_group2_eq],
    by simp [stamp_unsymmetric_right_group2_eq, applyAdds_val, plus_equals_val],
    ?_, ?_, ?_, ?_,
    by simp [stamp_unsymmetric_bottom_group2_eq],
    by simp [stamp_unsymmetric_bottom_group2_eq],
    by simp [stamp_unsymmetric_bottom_group2_eq, applyAdds_val, plus_equals_val],
    ?_, ?_, ?_, ?_⟩
  · intro i j hij
    have hcell : ¬(e = i ∧ e = j) := fun hc => hij ⟨hc.1.symm, hc.2.symm⟩
    simp [stamp_unsymmetric_right_group2_eq, applyAdds_val, plus_equals_val, hcell, hij]
  · intro h1
    by_cases h2 : n2 = 0
    · simp [stamp_unsymmetric_right_group2_eq, applyAdds_val, plus_equals_val, g2tr,
        addsSum_append, h1, h2]
    · have hd : ¬(n2 - 1 = n1 - 1) := by omega
      have hd2 : ¬(n1 - 1 = n2 - 1) := by omega
      simp [stamp_unsymmetric_right_group2_eq, applyAdds_val, plus_equals_val, g2tr,
        addsSum_append, h1, h2, hd, hd2]
  · intro h2
    by_cases h1 : n1 = 0
    · simp [stamp_unsymmetric_right_group2_eq, applyAdds_val, plus_equals_val, g2tr,
        addsSum_append, h1, h2]
    · have hd : ¬(n1 - 1 = n2 - 1) := by omega
      have hd2 : ¬(n2 - 1 = n1 - 1) := by omega
      simp [stamp_unsymmetric_right_group2_eq, applyAdds_val, plus_equals_val, g2tr,
        addsSum_append, h1, h2, hd, hd2]
  · intro i j hc1 hc2
    have k1 : ¬(n1 - 1 = i ∧ e = j) := fun hc => hc1 ⟨hc.1.symm, hc.2.symm⟩
    have k2 : ¬(n2 - 1 = i ∧ e = j) := fun hc => hc2 ⟨hc.1.symm, hc.2.symm⟩
    by_cases h1 : n1 = 0 <;> by_cases h2 : n2 = 0 <;>
      simp [stamp_unsymmetric_right_group2_eq, applyAdds_val, plus_equals_val, g2tr,
        addsSum_append, h1, h2, k1, k2, hc1, hc2]
  · intro i j hij
    have hcell : ¬(e = i ∧ e = j) := fun hc => hij ⟨hc.1.symm, hc.2.symm⟩
    simp [stamp_unsymmetric_bottom_group2_eq, applyAdds_val, plus_equals_val, hcell, hij]
  · intro h1
    by_cases h2 : n2 = 0
    · simp [stamp_unsymmetric_bottom_group2_eq, applyAdds_val, plus_equals_val, g2bl,
        addsSum_append, h1, h2]
    · have hd : ¬(n2 - 1 = n1 - 1) := by omega
      have hd2 : ¬(n1 - 1 = n2 - 1) := by omega
      simp [stamp_unsymmetric_bottom_group2_eq, applyAdds_val, plus_equals_val, g2bl,
        addsSum_append, h1, h2, hd, hd2]
  · intro h2
    by_cases h1 : n1 = 0
    · simp [stamp_unsymmetric_bottom_group2_eq, applyAdds_val, plus_equals_val, g2bl,
        addsSum_append, h1, h2]
    · have hd : ¬(n1 - 1 = n2 - 1) := by omega
      have hd2 : ¬(n2 - 1 = n1 - 1) := by omega
      simp [stamp_unsymmetric_bottom_group2_eq, applyAdds_val, plus_equals_val, g2bl,
        addsSum_append, h1, h2, hd, hd2]
  · intro i j hc1 hc2
    have k1 : ¬(e = i ∧ n1 - 1 = j) := fun hc => hc1 ⟨hc.1.symm, hc.2.symm⟩
    have k2 : ¬(e = i ∧ n2 - 1 = j) := fun hc => hc2 ⟨hc.1.symm, hc.2.symm⟩
    by_cases h1 : n1 = 0 <;> by_cases h2 : n2 = 0 <;>
      simp [stamp_unsymmetric_bottom_group2_eq, applyAdds_val, plus_equals_val, g2bl,
        addsSum_append, h1, h2, k1, k2, hc1, hc2]

/-- C3 witness: instance of `C3_unsymmetric_variants` on a fresh matrix with
terminals 1 and 2 and edge 0. -/
theorem C3_witness :
    MnaMatrix.new.add_unsymmetric_right_group2 1 2 0 3 5 7 =
      .ok (MnaMatrix.new.stamp_unsymmetric_right_group2 1 2 0 3 5 7) ∧
    (MnaMatrix.new.stamp_unsymmetric_right_group2 1 2 0 3 5 7).top_right.val 0 0 = 0 + 3 ∧
    (MnaMatrix.new.stamp_unsymmetric_right_group2 1 2 0 3 5 7).bottom_left = MnaMatrix.new.bottom_left := by
  have h := C3_unsymmetric_variants MnaMatrix.new 1 2 0 3 5 7 (by decide)
  obtain ⟨hok, -, -, -, -, -, -, -, -, hbl, -, -, htr, -⟩ := h
  exact ⟨hok, htr (by decide), hbl⟩

/-- C4: every matrix stamp operation updates each cell it targets by adding
the stamped value to the cell's existing value (absent cells read as zero in
the model), never by overwriting: each targeted cell's new value is its old
value plus the stamped quantity, for all five stamp operations. -/
theorem C4_stamps_accumulate (m : MnaMatrix) (n1 n2 e e1 e2 : Nat)
    (x1 x2 y : ℚ) (h : n1 ≠ n2) :
    (n1 ≠ 0 → n2 ≠ 0 →
      (m.stamp_symmetric_group1 n1 n2 x1 x2).top_left.val (n1 - 1) (n1 - 1) =
        m.top_left.val (n1 - 1) (n1 - 1) + x1 ∧
      (m.stamp_symmetric_group1 n1 n2 x1 x2).top_left.val (n2 - 1) (n2 - 1) =
        m.top_left.val (n2 - 1) (n2 - 1) + x1 ∧
      (m.stamp_symmetric_group1 n1 n2 x1 x2).top_left.val (n1 - 1) (n2 - 1) =
        m.top_left.val (n1 - 1) (n2 - 1) + x2 ∧
      (m.stamp_symmetric_group1 n1 n2 x1 x2).top_left.val (n2 - 1) (n1 - 1) =
        m.top_left.val (n2 - 1) (n1 - 1) + x2) ∧
    (n2 = 0 →
      (m.stamp_symmetric_group1 n1 n2 x1 x2).top_left.val (n1 - 1) (n1 - 1) =
        m.top_left.val (n1 - 1) (n1 - 1) + x1) ∧
    (n1 = 0 →
      (m.stamp_symmetric_group1 n1 n2 x1 x2).top_left.val (n2 - 1) (n2 - 1) =
        m.top_left.val (n2 - 1) (n2 - 1) + x1) ∧
    (m.stamp_symmetric_group2 n1 n2 e x1 x2 y).bottom_right.val e e =
      m.bottom_right.val e e + y ∧
    (n1 ≠ 0 →
      (m.stamp_symmetric_group2 n1 n2 e x1 x2 y).top_right.val (n1 - 1) e =
        m.top_right.val (n1 - 1) e + x1 ∧
      (m.stamp_symmetric_group2 n1 n2 e x1 x2 y).bottom_left.val e (n1 - 1) =
        m.bottom_left.val e (n1 - 1) + x1) ∧
    (n2 ≠ 0 →
      (m.stamp_symmetric_group2 n1 n2 e x1 x2 y).top_right.val (n2 - 1) e =
        m.top_right.val (n2 - 1) e + x2 ∧
      (m.stamp_symmetric_group2 n1 n2 e x1 x2 y).bottom_left.val e (n2 - 1) =
        m.bottom_left.val e (n2 - 1) + x2) ∧
    (m.stamp_unsymmetric_right_group2 n1 n2 e x1 x2 y).bottom_right.val e e =
      m.bottom_right.val e e + y ∧
    (n1 ≠ 0 →
      (m.stamp_unsymmetric_right_group2 n1 n2 e x1 x2 y).top_right.val (n1 - 1) e =
        m.top_right.val (n1 - 1) e + x1) ∧
    (n2 ≠ 0 →
      (m.stamp_unsymmetric_right_group2 n1 n2 e x1 x2 y).top_right.val (n2 - 1) e =
        m.top_right.val (n2 - 1) e + x2) ∧
    (m.stamp_unsymmetric_bottom_group2 n1 n2 e x1 x2 y).bottom_right.val e e =
      m.bottom_right.val e e + y ∧
    (n1 ≠ 0 →
      (m.stamp_unsymmetric_bottom_group2 n1 n2 e x1 x2 y).bottom_left.val e (n1 - 1) =
        m.bottom_left.val e (n1 - 1) + x1) ∧
    (n2 ≠ 0 →
      (m.stamp_unsymmetric_bottom_group2 n1 n2 e x1 x2 y).bottom_left.val e (n2 - 1) =
        m.bottom_left.val e (n2 - 1) + x2) ∧
    (m.add_group2_value e1 e2 y).bottom_right.val e1 e2 =
      m.bottom_right.val e1 e2 + y := by
  refine ⟨?_, ?_, ?_,
    by simp [stamp_symmetric_group2_eq, applyAdds_val, plus_equals_val],
    ?_, ?_,
    by simp [stamp_unsymmetric_right_group2_eq, applyAdds_val, plus_equals_val],
    ?_, ?_,
    by simp [stamp_unsymmetric_bottom_group2_eq, applyAdds_val, plus_equals_val],
    ?_, ?_,
    by simp [add_group2_value_eq, applyAdds_val, plus_equals_val]⟩
  · intro h1 h2
    have hd : n1 - 1 ≠ n2 - 1 := by omega
    refine ⟨?_, ?_, ?_, ?_⟩ <;>
      simp [stamp_symmetric_group1_eq, applyAdds_val, plus_equals_val, g1adds,
        h1, h2, hd, hd.symm]
  · intro h2
    have h1 : n1 ≠ 0 := by omega
    subst h2
    simp [stamp_symmetric_group1_eq, applyAdds_val, plus_equals_val, g1adds, h1]
  · intro h1
    subst h1
    simp [stamp_symmetric_group1_eq, applyAdds_val, plus_equals_val, g1adds]
  · intro h1
    by_cases h2 : n2 = 0
    · constructor <;>
        simp [stamp_symmetric_group2_eq, applyAdds_val, plus_equals_val,
          g2tr, g2bl, addsSum_append, h1, h2]
    · have hd : ¬(n2 - 1 = n1 - 1) := by omega
      have hd2 : ¬(n1 - 1 = n2 - 1) := by omega
      constructor <;>
        simp [stamp_symmetric_group2_eq, applyAdds_val, plus_equals_val,
          g2tr, g2bl, addsSum_append, h1, h2, hd, hd2]
  · intro h2
    by_cases h1 : n1 = 0
    · constructor <;>
        simp [stamp_symmetric_group2_eq, applyAdds_val, plus_equals_val,
          g2tr, g2bl, addsSum_append, h1, h2]
    · have hd : ¬(n2 - 1 = n1 - 1) := by omega
      have hd2 : ¬(n1 - 1 = n2 - 1) := by omega
      constructor <;>
        simp [stamp_symmetric_group2_eq, applyAdds_val, plus_equals_val,
          g2tr, g2bl, addsSum_append, h1, h2, hd, hd2]
  · intro h1
    by_cases h2 : n2 = 0
    · simp [stamp_unsymmetric_right_group2_eq, applyAdds_val, plus_equals_val,
        g2tr, addsSum_append, h1, h2]
    · have hd : ¬(n2 - 1 = n1 - 1) := by omega
      have hd2 : ¬(n1 - 1 = n2 - 1) := by omega
      simp [stamp_unsymmetric_right_group2_eq, applyAdds_val, plus_equals_val,
        g2tr, addsSum_append, h1, h2, hd, hd2]
  · intro h2
    by_cases h1 : n1 = 0
    · simp [stamp_unsymmetric_right_group2_eq, applyAdds_val, plus_equals_val,
        g2tr, addsSum_append, h1, h2]
    · have hd : ¬(n2 - 1 = n1 - 1) := by omega
      have hd2 : ¬(n1 - 1 = n2 - 1) := by omega
      simp [stamp_unsymmetric_right_group2_eq, applyAdds_val, plus_equals_val,
        g2tr, addsSum_append, h1, h2, hd, hd2]
  · intro h1
    by_cases h2 : n2 = 0
    · simp [stamp_unsymmetric_bottom_group2_eq, applyAdds_val, plus_equals_val,
        g2bl, addsSum_append, h1, h2]
    · have hd : ¬(n2 - 1 = n1 - 1) := by omega
      have hd2 : ¬(n1 - 1 = n2 - 1) := by omega
      simp [stamp_unsymmetric_bottom_group2_eq, applyAdds_val, plus_equals_val,
        g2bl, addsSum_append, h1, h2, hd, hd2]
  · intro h2
    by_cases h1 : n1 = 0
    · simp [stamp_unsymmetric_bottom_group2_eq, applyAdds_val, plus_equals_val,
        g2bl, addsSum_append, h1, h2]
    · have hd : ¬(n2 - 1 = n1 - 1) := by omega
      have hd2 : ¬(n1 - 1 = n2 - 1) := by omega
      simp [stamp_unsymmetric_bottom_group2_eq, applyAdds_val, plus_equals_val,
        g2bl, addsSum_append, h1, h2, hd, hd2]

/-- C4 witness: instance of `C4_stamps_accumulate` on a fresh matrix with
terminals 1 and 2, showing a bottom-right diagonal accumulation and a
group-2 single-value accumulation. -/
theorem C4_witness :
    (MnaMatrix.new.stamp_symmetric_group2 1 2 0 3 5 7).bottom_right.val 0 0 =
      MnaMatrix.new.bottom_right.val 0 0 + 7 ∧
    (MnaMatrix.new.add_group2_value 0 1 7).bottom_right.val 0 1 =
      MnaMatrix.new.bottom_right.val 0 1 + 7 := by
  have h := C4_stamps_accumulate MnaMatrix.new 1 2 0 0 1 3 5 7 (by decide)
  obtain ⟨-, -, -, hbr, -, -, -, -, -, -, -, -, hg2⟩ := h
  exact ⟨hbr, hg2⟩

theorem g1adds_cells (n1 n2 : Nat) (x1 x2 x1' x2' : ℚ) :
    (g1adds n1 n2 x1 x2).map (fun p => p.1) =
      (g1adds n1 n2 x1' x2').map (fun p => p.1) := by
  unfold g1adds
  split_ifs <;> rfl

/-- C5: for distinct node indices and conductances `g1`, `g2`, stamping two
resistors (no branch unknown) of conductance `g1` and `g2` (resistance
`1/g1`, `1/g2`) between the same nodes yields exactly the same assembled
matrix (same dimensions, same value in every cell) as stamping one resistor
of conductance `g1 + g2`. -/
theorem C5_resistor_accumulation (s : Mna) (a b : Nat) (g1 g2 : ℚ)
    (hab : a ≠ b) :
    s.stampAll [Component.Resistor a b none (1 / g1),
      Component.Resistor a b none (1 / g2)] =
      .ok (s.stampList [Component.Resistor a b none (1 / g1),
        Component.Resistor a b none (1 / g2)]) ∧
    s.stampAll [Component.Resistor a b none (1 / (g1 + g2))] =
      .ok (s.stampList [Component.Resistor a b none (1 / (g1 + g2))]) ∧
    (s.stampList [Component.Resistor a b none (1 / g1),
      Component.Resistor a b none (1 / g2)]).matrix.get_matrix.matEq
      (s.stampList [Component.Resistor a b none (1 / (g1 + g2))]).matrix.get_matrix := by
  have hok1 : ∀ c ∈ [Component.Resistor a b none (1 / g1),
      Component.Resistor a b none (1 / g2)], c.ok = true := by
    intro c hc
    rcases List.mem_cons.mp hc with h' | hc
    · subst h'
      simp [Component.ok, hab]
    · rcases List.mem_cons.mp hc with h' | hc
      · subst h'
        simp [Component.ok, hab]
      · simp at hc
  have hok2 : ∀ c ∈ [Component.Resistor a b none (1 / (g1 + g2))], c.ok = true := by
    intro c hc
    rcases List.mem_cons.mp hc with h' | hc
    · subst h'
      simp [Component.ok, hab]
    · simp at hc
  refine ⟨stampAll_ok _ _ hok1, stampAll_ok _ _ hok2, get_matrix_matEq ?_⟩
  refine ⟨?_, ?_, ?_, ?_, ?_, ?_, ?_, ?_⟩
  · simp only [stampList_cons, stampList_nil, stamp_element_nvn, nodeBound]
    omega
  · simp only [stampList_cons, stampList_nil, stamp_element_nce, edgeBound]
    omega
  · simp only [stampList_cons, stampList_nil, stamp_element_tl, addsTL]
    refine ⟨by simp, by simp, ?_, ?_⟩
    · intro k
      simp only [applyAdds_mem_keys]
      rw [g1adds_cells a b (1 / (1 / g1)) (-(1 / (1 / g1))) (1 / (1 / (g1 + g2)))
        (-(1 / (1 / (g1 + g2)))),
        g1adds_cells a b (1 / (1 / g2)) (-(1 / (1 / g2))) (1 / (1 / (g1 + g2)))
        (-(1 / (1 / (g1 + g2))))]
      tauto
    · intro i j
      simp only [applyAdds_val, one_div_one_div]
      unfold g1adds
      split_ifs <;> simp [addsSum] <;> split_ifs <;> ring
  · simp only [stampList_cons, stampList_nil, stamp_element_tr, addsTR,
      applyAdds_nil]
    exact sparse_equiv_refl _
  · simp only [stampList_cons, stampList_nil, stamp_element_bl, addsBL,
      applyAdds_nil]
    exact sparse_equiv_refl _
  · simp only [stampList_cons, stampList_nil, stamp_element_br, addsBR,
      applyAdds_nil]
    exact sparse_equiv_refl _
  · simp only [stampList_cons, stampList_nil, stamp_element_rtop, wTop,
      applyWrites_nil]
    exact sparse_equiv_refl _
  · simp only [stampList_cons, stampList_nil, stamp_element_rbot, wBot,
      applyWrites_nil]
    exact sparse_equiv_refl _

/-- C5 witness: concrete instance of `C5_resistor_accumulation` between
nodes 1 and 2 with conductances 2 and 3. -/
theorem C5_witness :
    (Mna.new.stampList [Component.Resistor 1 2 none (1 / 2),
      Component.Resistor 1 2 none (1 / 3)]).matrix.get_matrix.matEq
      (Mna.new.stampList [Component.Resistor 1 2 none (1 / (2 + 3))]).matrix.get_matrix :=
  (C5_resistor_accumulation Mna.new 1 2 2 3 (by decide)).2.2

/-- C10 counterexample: the claim's bound `n - 1 ≥ numVoltageNodes` does not
imply a panic.  Here node 3's excitation entry is recorded with
`3 - 1 = 2 ≥ numVoltageNodes = 1`, but `2 < numVoltageNodes +
numCurrentEdges = 3`, so the write lands (silently) in the branch-current
segment and `get_system` returns a system instead of panicking. -/
theorem C10_counterexample :
    (Mna.new.stampList [Component.Resistor 1 0 none 1,
      Component.IndependentVoltageSource 1 0 0 1,
      Component.IndependentVoltageSource 1 0 1 1,
      Component.IndependentCurrentSource 3 0 none 1]).num_voltage_nodes = 1 ∧
    (Mna.new.stampList [Component.Resistor 1 0 none 1,
      Component.IndependentVoltageSource 1 0 0 1,
      Component.IndependentVoltageSource 1 0 1 1,
      Component.IndependentCurrentSource 3 0 none 1]).num_current_edges = 2 ∧
    ((2 : Nat), (1 : Nat)) ∈ (Mna.new.stampList [Component.Resistor 1 0 none 1,
      Component.IndependentVoltageSource 1 0 0 1,
      Component.IndependentVoltageSource 1 0 1 1,
      Component.IndependentCurrentSource 3 0 none 1]).rhs.top.keys ∧
    (systemOf [Component.Resistor 1 0 none 1,
      Component.IndependentVoltageSource 1 0 0 1,
      Component.IndependentVoltageSource 1 0 1 1,
      Component.IndependentCurrentSource 3 0 none 1]).map Prod.snd =
      .ok [0, 1, 1] := by
  refine ⟨rfl, rfl, ?_, rfl⟩
  decide

/-- C10 (amended): if a group-1 excitation entry is recorded at a non-ground
node `n` with `n - 1 ≥ numVoltageNodes + numCurrentEdges` — as happens when
the only element touching node `n` is an independent current source with no
branch unknown, whose dispatch path writes the RHS but never stamps the
matrix — then the `out[n-1]` write in `get_vector` is out of bounds and
`get_system` panics (index out of bounds) instead of returning a system. -/
theorem C10_get_system_oob (s : Mna) (n : Nat) (i : ℚ) (hn : n ≠ 0)
    (hb : s.num_voltage_nodes + s.num_current_edges ≤ n - 1) :
    s.add_element_stamp (Component.IndependentCurrentSource n 0 none i) =
      .ok (s.stamp_element (Component.IndependentCurrentSource n 0 none i)) ∧
    (s.stamp_element (Component.IndependentCurrentSource n 0 none i)).get_system =
      .error "index out of bounds" := by
  refine ⟨add_element_stamp_ok s _ rfl, ?_⟩
  have hkey : ((n - 1, 1) : Nat × Nat) ∈
      (s.stamp_element (Component.IndependentCurrentSource n 0 none i)).rhs.top.keys := by
    rw [stamp_element_rtop, applyWrites_mem_keys]
    right
    simp [wTop, hn]
  have hmat : (s.stamp_element (Component.IndependentCurrentSource n 0 none i)).matrix =
      s.matrix := rfl
  have hex : ∃ w ∈ ((s.stamp_element (Component.IndependentCurrentSource n 0 none i)).rhs.top.non_zero_vals.map
        (fun kv => (kv.1.1, kv.2))),
      (List.replicate
        ((s.stamp_element (Component.IndependentCurrentSource n 0 none i)).matrix.num_voltage_nodes +
         (s.stamp_element (Component.IndependentCurrentSource n 0 none i)).matrix.num_current_edges)
        (0 : ℚ)).length ≤ w.1 := by
    refine ⟨(n - 1,
      (s.stamp_element (Component.IndependentCurrentSource n 0 none i)).rhs.top.val (n - 1) 1),
      ?_, ?_⟩
    · rw [List.mem_map]
      refine ⟨((n - 1, 1),
        (s.stamp_element (Component.IndependentCurrentSource n 0 none i)).rhs.top.val (n - 1) 1),
        ?_, rfl⟩
      rw [SparseMat.non_zero_vals, List.mem_map]
      exact ⟨(n - 1, 1), hkey, rfl⟩
    · rw [List.length_replicate, hmat]
      exact hb
  have hfold := foldWrites_oob _ _ hex
  simp only [Mna.get_system, MnaRhs.get_vector, hfold]

/-- C10 witness: `C10_get_system_oob` on the fresh builder with a single
groundless independent current source into node 1. -/
theorem C10_witness :
    Mna.new.add_element_stamp (Component.IndependentCurrentSource 1 0 none 1) =
      .ok (Mna.new.stamp_element (Component.IndependentCurrentSource 1 0 none 1)) ∧
    (Mna.new.stamp_element (Component.IndependentCurrentSource 1 0 none 1)).get_system =
      .error "index out of bounds" :=
  C10_get_system_oob Mna.new 1 1 (by decide) (by decide)

/-- C2 counterexample: the two lists are permutations of the same two
element descriptors (two voltage sources sharing branch index 0), yet the
two processing orders finalize to different right-hand-side vectors, because
the edge-indexed excitation stamp overwrites. -/
theorem C2_counterexample :
    [Component.IndependentVoltageSource 1 0 0 1,
      Component.IndependentVoltageSource 1 0 0 2].Perm
      [Component.IndependentVoltageSource 1 0 0 2,
        Component.IndependentVoltageSource 1 0 0 1] ∧
    (systemOf [Component.IndependentVoltageSource 1 0 0 1,
      Component.IndependentVoltageSource 1 0 0 2]).map Prod.snd = .ok [0, 2] ∧
    (systemOf [Component.IndependentVoltageSource 1 0 0 2,
      Component.IndependentVoltageSource 1 0 0 1]).map Prod.snd = .ok [0, 1] ∧
    (systemOf [Component.IndependentVoltageSource 1 0 0 1,
      Component.IndependentVoltageSource 1 0 0 2]).map Prod.snd ≠
      (systemOf [Component.IndependentVoltageSource 1 0 0 2,
        Component.IndependentVoltageSource 1 0 0 1]).map Prod.snd := by
  refine ⟨List.Perm.swap _ _ _, rfl, rfl, ?_⟩
  intro h
  rw [show (systemOf [Component.IndependentVoltageSource 1 0 0 1,
      Component.IndependentVoltageSource 1 0 0 2]).map Prod.snd =
      .ok [0, 2] from rfl,
    show (systemOf [Component.IndependentVoltageSource 1 0 0 2,
      Component.IndependentVoltageSource 1 0 0 1]).map Prod.snd =
      .ok [0, 1] from rfl] at h
  simp only [Except.ok.injEq, List.cons.injEq] at h
  norm_num at h

/-- C2 (amended): for every finite list of supported, valid element
descriptors in which no two distinct elements write the same
excitation-vector cell, processing the elements through
`add_element_stamp` in either order and then calling `get_system` yields
an identical assembled coefficient matrix (same dimensions and entries)
and an identical right-hand-side vector (or the identical panic). -/
theorem C2_order_independence (l1 l2 : List Component) (hp : l1.Perm l2)
    (hok : ∀ c ∈ l1, c.ok = true) (hd : l1.Pairwise rhsDisjoint) :
    exceptRel (fun p q => p.1.matEq q.1 ∧ p.2 = q.2)
      (systemOf l1) (systemOf l2) := by
  have hok2 : ∀ c ∈ l2, c.ok = true := fun c hc => hok c (hp.mem_iff.mpr hc)
  have e1 : Mna.new.stampAll l1 = .ok (Mna.new.stampList l1) :=
    stampAll_ok _ _ hok
  have e2 : Mna.new.stampAll l2 = .ok (Mna.new.stampList l2) :=
    stampAll_ok _ _ hok2
  have hsys1 : systemOf l1 = (Mna.new.stampList l1).get_system := by
    simp [systemOf, e1]
  have hsys2 : systemOf l2 = (Mna.new.stampList l2).get_system := by
    simp [systemOf, e2]
  rw [hsys1, hsys2]
  have hinv1 := stampList_rhsInv l1 Mna.new RhsInv.empty RhsInv.empty
  have hinv2 := stampList_rhsInv l2 Mna.new RhsInv.empty RhsInv.empty
  exact get_system_rel (stampList_perm hp Mna.new hd)
    hinv1.1 hinv1.2 hinv2.1 hinv2.2

/-- C2 witness: `C2_order_independence` on a resistor and a voltage source
stamped in the two possible orders. -/
theorem C2_witness :
    exceptRel (fun p q => p.1.matEq q.1 ∧ p.2 = q.2)
      (systemOf [Component.Resistor 1 2 none 1,
        Component.IndependentVoltageSource 2 0 0 5])
      (systemOf [Component.IndependentVoltageSource 2 0 0 5,
        Component.Resistor 1 2 none 1]) := by
  refine C2_order_independence _ _ (List.Perm.swap _ _ _) ?_ ?_
  · decide
  · decide

end Esim
